import Mathlib

/-!
Verification development for the Choreonoid procedural mesh-generation engine
(`src/Util/MeshGenerator.cpp`).

The C++ code is shallowly embedded: machine `double`/`float` values are
modelled as real numbers, `std::vector` as `List`, and the `SgMesh` output
object as a record of its arrays.  Collaborators that are only declared in the
shown sources (`MeshFilter`, `Triangulator`, `MeshExtractor`) are modelled from
the specification, as noted on each definition.  Branches of the source that
compare real quantities are embedded with classical `if`s, so several
definitions are `noncomputable`; concrete evaluations in the theorems below go
through `simp` / `norm_num`.
-/

namespace Choreonoid

/-- 3D point / vector (`cnoid::Vector3` or `Vector3f`), modelled over ℝ. -/
abbrev Vec3 : Type := ℝ × ℝ × ℝ

/-- 2D point (`cnoid::Vector2`), modelled over ℝ. -/
abbrev Vec2 : Type := ℝ × ℝ

/-- Componentwise vector addition. -/
def vadd (a b : Vec3) : Vec3 := (a.1 + b.1, a.2.1 + b.2.1, a.2.2 + b.2.2)

/-- Componentwise vector subtraction. -/
def vsub (a b : Vec3) : Vec3 := (a.1 - b.1, a.2.1 - b.2.1, a.2.2 - b.2.2)

/-- Scalar multiplication of a vector. -/
def vsmul (c : ℝ) (a : Vec3) : Vec3 := (c * a.1, c * a.2.1, c * a.2.2)

/-- Cross product (`Eigen::Vector3::cross`). -/
def vcross (a b : Vec3) : Vec3 :=
  (a.2.1 * b.2.2 - a.2.2 * b.2.1,
   a.2.2 * b.1 - a.1 * b.2.2,
   a.1 * b.2.1 - a.2.1 * b.1)

/-- Dot product (`Eigen::Vector3::dot`). -/
def vdot (a b : Vec3) : ℝ := a.1 * b.1 + a.2.1 * b.2.1 + a.2.2 * b.2.2

/-- Euclidean norm (`Eigen::Vector3::norm`). -/
noncomputable def vnorm (a : Vec3) : ℝ := Real.sqrt (a.1 ^ 2 + a.2.1 ^ 2 + a.2.2 ^ 2)

/-- `Eigen::Vector3::normalized`: the vector divided by its norm. -/
noncomputable def vnormalized (a : Vec3) : Vec3 := vsmul (1 / vnorm a) a

/-- A 3×3 matrix given by its three columns (matching the Eigen comma
initializer `Scp << x, y, z` which fills the columns with the vectors). -/
structure Mat3 where
  colX : Vec3
  colY : Vec3
  colZ : Vec3

/-- Matrix–vector product for the column representation. -/
def matApply (m : Mat3) (v : Vec3) : Vec3 :=
  vadd (vsmul v.1 m.colX) (vadd (vsmul v.2.1 m.colY) (vsmul v.2.2 m.colZ))

/-- `Eigen::AngleAxis::toRotationMatrix`: Rodrigues formula
`cos θ · I + sin θ · [u]ₓ + (1 − cos θ) · u uᵀ` applied to the stored axis
exactly as given (Eigen does not normalize the axis). -/
noncomputable def angleAxisToMatrix (angle : ℝ) (axis : Vec3) : Mat3 :=
  let c := Real.cos angle
  let s := Real.sin angle
  let u := axis
  let e1 : Vec3 := (1, 0, 0)
  let e2 : Vec3 := (0, 1, 0)
  let e3 : Vec3 := (0, 0, 1)
  { colX := vadd (vsmul c e1) (vadd (vsmul s (vcross u e1)) (vsmul ((1 - c) * u.1) u))
    colY := vadd (vsmul c e2) (vadd (vsmul s (vcross u e2)) (vsmul ((1 - c) * u.2.1) u))
    colZ := vadd (vsmul c e3) (vadd (vsmul s (vcross u e3)) (vsmul ((1 - c) * u.2.2) u)) }

/-- The analytic primitive descriptor stored on a mesh
(`SgMesh::Box`, `SgMesh::Sphere`, ...). -/
inductive Primitive where
  | box (size : Vec3)
  | sphere (radius : ℝ)
  | cylinder (radius height : ℝ)
  | cone (radius height : ℝ)
  | capsule (radius height : ℝ)
deriving Inhabited

/-- The mesh output object (`cnoid::SgMesh`), reduced to the arrays the
generation engine fills.  `creaseAngleUsed` records the crease angle passed to
the normal-generation collaborator (`MeshFilter::generateNormals`), which is
only declared in the shown sources; `none` means the collaborator was never
invoked for this mesh. -/
structure SgMesh where
  vertices : List Vec3 := []
  triangles : List (ℕ × ℕ × ℕ) := []
  normals : List Vec3 := []
  normalIndices : List ℕ := []
  texCoords : List Vec2 := []
  texCoordIndices : List ℤ := []
  primitive : Option Primitive := none
  creaseAngleUsed : Option ℝ := none

/-- The flattened triangle-vertex index array (`SgMesh::triangleVertices`). -/
def SgMesh.triangleVertices (m : SgMesh) : List ℕ :=
  m.triangles.flatMap fun t => [t.1, t.2.1, t.2.2]

/-- `SgMesh::numTriangles`. -/
def SgMesh.numTriangles (m : SgMesh) : ℕ := m.triangles.length

/-- The mesh generator configuration state (`cnoid::MeshGenerator`): the
division number is an `int` that the setter keeps non-negative, here a `ℕ`. -/
structure MeshGenerator where
  divisionNumber : ℕ := 20
  isNormalGenerationEnabled : Bool := true
  isBoundingBoxUpdateEnabled : Bool := true

/-- The default division number (`::defaultDivisionNumber`). -/
def defaultDivisionNumber : ℕ := 20

/-- `MeshGenerator::setDivisionNumber`: negative values reset to the default. -/
def setDivisionNumber (g : MeshGenerator) (n : ℤ) : MeshGenerator :=
  if n < 0 then { g with divisionNumber := defaultDivisionNumber }
  else { g with divisionNumber := n.toNat }

/-- `MeshGenerator::generateNormals`: when normal generation is enabled the
mesh filter collaborator is invoked with the given crease angle.
`MeshFilter::generateNormals` itself is not among the shown sources; per the
specification it populates the normal arrays in place, and the invocation is
modelled by recording the crease angle on the mesh. -/
def generateNormals (g : MeshGenerator) (mesh : SgMesh) (creaseAngle : ℝ) : SgMesh :=
  if g.isNormalGenerationEnabled then { mesh with creaseAngleUsed := some creaseAngle }
  else mesh

/-! ## Box (`MeshGenerator::generateBox`) -/

/-- Vertices of the box: the 8 corners, in the order the source lists them. -/
noncomputable def boxVertices (size : Vec3) : List Vec3 :=
  let x := size.1 * (1/2)
  let y := size.2.1 * (1/2)
  let z := size.2.2 * (1/2)
  [(x, y, z), (-x, y, z), (-x, -y, z), (x, -y, z),
   (x, y, -z), (-x, y, -z), (-x, -y, -z), (x, -y, -z)]

/-- The 12 fixed box triangles. -/
def boxTriangles : List (ℕ × ℕ × ℕ) :=
  [(0,1,2),(2,3,0),
   (0,5,1),(0,4,5),
   (1,5,6),(1,6,2),
   (2,6,7),(2,7,3),
   (3,7,4),(3,4,0),
   (4,6,5),(4,7,6)]

open Classical in
/-- `MeshGenerator::generateBox` (texture-coordinate generation, which only
fills the texture arrays, is not embedded for the box). -/
noncomputable def generateBox (g : MeshGenerator) (size : Vec3) : Option SgMesh :=
  if size.1 < 0 ∨ size.2.1 < 0 ∨ size.2.2 < 0 then none
  else
    let mesh : SgMesh :=
      { vertices := boxVertices size
        triangles := boxTriangles
        primitive := some (Primitive.box size) }
    some (generateNormals g mesh 0)

/-! ## Sphere (`MeshGenerator::generateSphere`) -/

/-- The sphere vertex array: for each latitude index `i ∈ [1, vdn)` and
longitude index `j ∈ [0, hdn)` the sampled point, then the two poles. -/
noncomputable def sphereVertices (radius : ℝ) (vdn hdn : ℕ) : List Vec3 :=
  ((List.range (vdn - 1)).flatMap fun i =>
    (List.range hdn).map fun j =>
      let tv : ℝ := (i + 1 : ℕ) * Real.pi / vdn
      let th : ℝ := (j : ℕ) * (2 * Real.pi) / hdn
      (radius * Real.sin tv * Real.cos th,
       radius * Real.cos tv,
       radius * Real.sin tv * Real.sin th))
  ++ [(0, radius, 0), (0, -radius, 0)]

/-- The sphere triangle array: the top fan, the latitude bands, and the bottom
fan, with `topIndex = (vdn-1)*hdn` and `bottomIndex = (vdn-1)*hdn + 1`. -/
def sphereTriangles (vdn hdn : ℕ) : List (ℕ × ℕ × ℕ) :=
  let topIndex := (vdn - 1) * hdn
  let bottomIndex := topIndex + 1
  ((List.range hdn).map fun i => (topIndex, (i + 1) % hdn, i))
  ++ ((List.range (vdn - 2)).flatMap fun i =>
      (List.range hdn).flatMap fun j =>
        [(j + i * hdn, (j + 1) % hdn + (i + 1) * hdn, j + (i + 1) * hdn),
         (j + i * hdn, (j + 1) % hdn + i * hdn, (j + 1) % hdn + (i + 1) * hdn)])
  ++ ((List.range hdn).map fun i =>
      (bottomIndex, i % hdn + (vdn - 2) * hdn, (i + 1) % hdn + (vdn - 2) * hdn))

open Classical in
/-- `MeshGenerator::generateSphere` (texture-coordinate generation, which only
fills the texture arrays, is not embedded for the sphere). -/
noncomputable def generateSphere (g : MeshGenerator) (radius : ℝ) : Option SgMesh :=
  if radius < 0 ∨ g.divisionNumber < 4 then none
  else
    let vdn := g.divisionNumber / 2
    let hdn := g.divisionNumber
    let mesh : SgMesh :=
      { vertices := sphereVertices radius vdn hdn
        triangles := sphereTriangles vdn hdn
        primitive := some (Primitive.sphere radius) }
    some (generateNormals g mesh Real.pi)

/-! ## Cylinder (`MeshGenerator::generateCylinder`) -/

/-- The cylinder vertex array: the source fills `vertices[i]` (top ring) and
`vertices[i + divisionNumber]` (bottom ring) in one loop and then pushes the
two cap centers; embedded as the two ring blocks followed by the centers. -/
noncomputable def cylinderVertices (radius height : ℝ) (d : ℕ) : List Vec3 :=
  ((List.range d).map fun i =>
    let angle : ℝ := (i : ℕ) * (2 * Real.pi) / d
    (radius * Real.cos angle, height / 2, radius * Real.sin angle))
  ++ ((List.range d).map fun i =>
    let angle : ℝ := (i : ℕ) * (2 * Real.pi) / d
    (radius * Real.cos angle, -(height / 2), radius * Real.sin angle))
  ++ [(0, height / 2, 0), (0, -(height / 2), 0)]

/-- The cylinder triangle array: per longitude step, the top-cap fan triangle,
the two side triangles, and the bottom-cap fan triangle, each group guarded by
its face-inclusion flag; `topCenterIndex = 2*d`, `bottomCenterIndex = 2*d+1`. -/
def cylinderTriangles (d : ℕ) (bottom top side : Bool) : List (ℕ × ℕ × ℕ) :=
  (List.range d).flatMap fun i =>
    (if top then [(2 * d, (i + 1) % d, i)] else [])
    ++ (if side then
          [(i, (i + 1) % d + d, i + d),
           (i, (i + 1) % d, (i + 1) % d + d)]
        else [])
    ++ (if bottom then [(2 * d + 1, i + d, (i + 1) % d + d)] else [])

open Classical in
/-- `MeshGenerator::generateCylinder` (texture-coordinate generation, which
only fills the texture arrays, is not embedded for the cylinder). -/
noncomputable def generateCylinder
    (g : MeshGenerator) (radius height : ℝ) (bottom top side : Bool) : Option SgMesh :=
  if height < 0 ∨ radius < 0 then none
  else
    let mesh : SgMesh :=
      { vertices := cylinderVertices radius height g.divisionNumber
        triangles := cylinderTriangles g.divisionNumber bottom top side
        primitive := some (Primitive.cylinder radius height) }
    some (generateNormals g mesh (Real.pi / 2))

/-! ## Cone (`MeshGenerator::generateCone`) -/

/-- The cone vertex array: the base ring, the apex, and the base center. -/
noncomputable def coneVertices (radius height : ℝ) (d : ℕ) : List Vec3 :=
  ((List.range d).map fun i =>
    let angle : ℝ := (i : ℕ) * (2 * Real.pi) / d
    (radius * Real.cos angle, -(height / 2), radius * Real.sin angle))
  ++ [(0, height / 2, 0), (0, -(height / 2), 0)]

/-- The cone triangle array: per longitude step, the apex fan triangle and the
base fan triangle, guarded by flags; `topIndex = d`, `bottomCenterIndex = d+1`. -/
def coneTriangles (d : ℕ) (bottom side : Bool) : List (ℕ × ℕ × ℕ) :=
  (List.range d).flatMap fun i =>
    (if side then [(d, (i + 1) % d, i)] else [])
    ++ (if bottom then [(d + 1, i, (i + 1) % d)] else [])

open Classical in
/-- `MeshGenerator::generateCone` (texture-coordinate generation, which only
fills the texture arrays, is not embedded for the cone). -/
noncomputable def generateCone
    (g : MeshGenerator) (radius height : ℝ) (bottom side : Bool) : Option SgMesh :=
  if radius < 0 ∨ height < 0 then none
  else
    let mesh : SgMesh :=
      { vertices := coneVertices radius height g.divisionNumber
        triangles := coneTriangles g.divisionNumber bottom side
        primitive := some (Primitive.cone radius height) }
    some (generateNormals g mesh (Real.pi / 2))

/-! ## Capsule (`MeshGenerator::generateCapsule`) -/

/-- The capsule latitudinal division number: `divisionNumber / 2`, incremented
when odd. -/
def capsuleVdn (d : ℕ) : ℕ :=
  if d / 2 % 2 = 1 then d / 2 + 1 else d / 2

/-- The capsule vertex array: for `i ∈ [1, vdn]`, upper-hemisphere rings are
offset by `+height/2` with `tv = i·π/vdn`, lower-hemisphere rings by
`−height/2` with `tv = (i−1)·π/vdn`; then the two poles. -/
noncomputable def capsuleVertices (radius height : ℝ) (vdn hdn : ℕ) : List Vec3 :=
  ((List.range vdn).flatMap fun i0 =>
    let i := i0 + 1
    let y : ℝ := if i ≤ vdn / 2 then height / 2 else -(height / 2)
    let tv : ℝ := if i ≤ vdn / 2 then (i : ℕ) * Real.pi / vdn
                  else ((i - 1 : ℕ) : ℝ) * Real.pi / vdn
    (List.range hdn).map fun j =>
      let th : ℝ := (j : ℕ) * (2 * Real.pi) / hdn
      (radius * Real.sin tv * Real.cos th,
       radius * Real.cos tv + y,
       radius * Real.sin tv * Real.sin th))
  ++ [(0, radius + height / 2, 0), (0, -radius - height / 2, 0)]

/-- The capsule triangle array: the top fan, `vdn - 1` latitude bands, and the
bottom fan; `topIndex = vdn*hdn`, `bottomIndex = vdn*hdn + 1`. -/
def capsuleTriangles (vdn hdn : ℕ) : List (ℕ × ℕ × ℕ) :=
  let topIndex := vdn * hdn
  let bottomIndex := topIndex + 1
  ((List.range hdn).map fun i => (topIndex, (i + 1) % hdn, i))
  ++ ((List.range (vdn - 1)).flatMap fun i =>
      (List.range hdn).flatMap fun j =>
        [(j + i * hdn, (j + 1) % hdn + (i + 1) * hdn, j + (i + 1) * hdn),
         (j + i * hdn, (j + 1) % hdn + i * hdn, (j + 1) % hdn + (i + 1) * hdn)])
  ++ ((List.range hdn).map fun i =>
      (bottomIndex, i % hdn + (vdn - 1) * hdn, (i + 1) % hdn + (vdn - 1) * hdn))

open Classical in
/-- `MeshGenerator::generateCapsule`. -/
noncomputable def generateCapsule (g : MeshGenerator) (radius height : ℝ) : Option SgMesh :=
  if height < 0 ∨ radius < 0 then none
  else
    let vdn := capsuleVdn g.divisionNumber
    let hdn := g.divisionNumber
    let mesh : SgMesh :=
      { vertices := capsuleVertices radius height vdn hdn
        triangles := capsuleTriangles vdn hdn
        primitive := some (Primitive.capsule radius height) }
    some (generateNormals g mesh (Real.pi / 2))

/-! ## Disc (`MeshGenerator::generateDisc`) -/

/-- The disc vertex array: per division step the inner-ring point followed by
the outer-ring point. -/
noncomputable def discVertices (radius innerRadius : ℝ) (d : ℕ) : List Vec3 :=
  (List.range d).flatMap fun i =>
    let angle : ℝ := (i : ℕ) * (2 * Real.pi) / d
    let x := Real.cos angle
    let z := Real.sin angle
    [(innerRadius * x, 0, innerRadius * z), (radius * x, 0, radius * z)]

/-- The disc triangle array: two triangles per division step between the
interleaved inner/outer ring points. -/
def discTriangles (d : ℕ) : List (ℕ × ℕ × ℕ) :=
  (List.range d).flatMap fun i =>
    let j := (i + 1) % d
    [(2 * i, 2 * i + 1, 2 * j + 1), (2 * i, 2 * j + 1, 2 * j)]

open Classical in
/-- `MeshGenerator::generateDisc`: note that the disc sets a single `+Z`
normal and the normal-index array directly and never invokes the
normal-generation collaborator. -/
noncomputable def generateDisc (g : MeshGenerator) (radius innerRadius : ℝ) : Option SgMesh :=
  if innerRadius ≤ 0 ∨ radius ≤ innerRadius then none
  else
    some
      { vertices := discVertices radius innerRadius g.divisionNumber
        triangles := discTriangles g.divisionNumber
        normals := [(0, 0, 1)]
        normalIndices := List.replicate (g.divisionNumber * 6) 0 }

/-! ## Torus (`MeshGenerator::generateTorus`) -/

/-- The torus vertex array: `phiDivisionNumber` longitudinal rings of
`thetaDivisionNumber` cross-section samples, with `phi` advancing by
`phiStep` per ring from `beginAngle`. -/
noncomputable def torusVertices
    (radius crossSectionRadius beginAngle phiStep : ℝ)
    (phiDivisionNumber thetaDivisionNumber : ℕ) : List Vec3 :=
  (List.range phiDivisionNumber).flatMap fun i =>
    let phi := beginAngle + (i : ℕ) * phiStep
    (List.range thetaDivisionNumber).map fun j =>
      let theta : ℝ := (j : ℕ) * (2 * Real.pi) / thetaDivisionNumber
      let r := crossSectionRadius * Real.cos theta + radius
      (Real.cos phi * r, crossSectionRadius * Real.sin theta, Real.sin phi * r)

/-- The torus triangle array: two triangles per cell over `n` longitudinal
steps, wrapping both directions modulo the division numbers. -/
def torusTriangles (n phiDivisionNumber thetaDivisionNumber : ℕ) : List (ℕ × ℕ × ℕ) :=
  (List.range n).flatMap fun i =>
    let current := i * thetaDivisionNumber
    let next := (i + 1) % phiDivisionNumber * thetaDivisionNumber
    (List.range thetaDivisionNumber).flatMap fun j =>
      let jNext := (j + 1) % thetaDivisionNumber
      [(current + j, next + jNext, next + j),
       (current + j, current + jNext, next + jNext)]

open Classical in
/-- `MeshGenerator::generateTorus` (four-argument overload).  The C++
`int phiDivisionNumber = divisionNumber_ * endAngle / (2.0 * PI)` converts the
real product to `int` by truncation, embedded with `Int.toNat ∘ Int.floor`
(the quantity is non-negative for the angle ranges the generator is used
with).  The function constructs and returns a mesh unconditionally. -/
noncomputable def generateTorus4
    (g : MeshGenerator) (radius crossSectionRadius beginAngle endAngle : ℝ) : SgMesh :=
  let isSemiTorus := beginAngle > 0 ∨ endAngle < 2 * Real.pi
  let phiDivisionNumber0 := (⌊(g.divisionNumber : ℝ) * endAngle / (2 * Real.pi)⌋).toNat
  let phiStep := (endAngle - beginAngle) / phiDivisionNumber0
  let phiDivisionNumber := if isSemiTorus then phiDivisionNumber0 + 1 else phiDivisionNumber0
  let thetaDivisionNumber := g.divisionNumber / 4
  let n := if endAngle = 2 * Real.pi then phiDivisionNumber else phiDivisionNumber - 1
  let mesh : SgMesh :=
    { vertices :=
        torusVertices radius crossSectionRadius beginAngle phiStep
          phiDivisionNumber thetaDivisionNumber
      triangles := torusTriangles n phiDivisionNumber thetaDivisionNumber }
  generateNormals g mesh Real.pi

/-- `MeshGenerator::generateTorus` (two-argument overload): the full sweep. -/
noncomputable def generateTorus (g : MeshGenerator) (radius crossSectionRadius : ℝ) : SgMesh :=
  generateTorus4 g radius crossSectionRadius 0 (2 * Real.pi)

/-! ## Arrow (`MeshGenerator::generateArrow`) -/

/-- Modelled from the spec: `MeshExtractor::integrate` — only declared in the
shown sources — "walks a group of shapes and bakes transforms into a single
mesh" (`IntegrateShapes(groupOfShapesWithTransforms) -> singleMesh`).  Each
group child is a translation paired with an optional shape mesh; children
whose mesh is absent contribute nothing, and the result is always a single
(possibly empty) mesh whose triangle indices are offset past the vertices
already merged. -/
def integrate (group : List (Vec3 × Option SgMesh)) : SgMesh :=
  group.foldl
    (fun acc child =>
      match child.2 with
      | none => acc
      | some m =>
        let offset := acc.vertices.length
        { acc with
            vertices := acc.vertices ++ m.vertices.map (vadd child.1)
            triangles := acc.triangles ++
              m.triangles.map fun t => (t.1 + offset, t.2.1 + offset, t.2.2 + offset) })
    { vertices := [], triangles := [] }

/-- `MeshGenerator::generateArrow`: the cone head translated by
`cylinderHeight/2 + coneHeight/2` along `+Y` and the capped-bottom, open-top
cylinder shaft, merged by the integration collaborator.  The sub-generator
calls use the default face flags of the omitted header (`bottom = side = true`
for the cone; the cylinder call passes `bottom = true, top = false` and leaves
`side = true`).  No parameter validation is performed. -/
noncomputable def generateArrow
    (g : MeshGenerator) (cylinderRadius cylinderHeight coneRadius coneHeight : ℝ) : SgMesh :=
  let cone := generateCone g coneRadius coneHeight true true
  let conePos : Vec3 := (0, cylinderHeight / 2 + coneHeight / 2, 0)
  let cylinder := generateCylinder g cylinderRadius cylinderHeight true false true
  integrate [(conePos, cone), ((0, 0, 0), cylinder)]

/-! ## Elevation grid (`MeshGenerator::generateElevationGrid`) -/

/-- The `ElevationGrid` geometry descriptor.  The dimensions are C++ `int`s;
they are embedded as `ℕ` (the generators in the claims use non-negative
dimensions, and a negative dimension fails the size check below whenever the
other dimension is positive). -/
structure ElevationGrid where
  xDimension : ℕ := 0
  zDimension : ℕ := 0
  xSpacing : ℝ := 1
  zSpacing : ℝ := 1
  height : List ℝ := []
  ccw : Bool := true
  creaseAngle : ℝ := 0

/-- The elevation-grid vertex array: lattice points at the given spacings with
`y` the supplied height sample. -/
noncomputable def elevationGridVertices (grid : ElevationGrid) : List Vec3 :=
  (List.range grid.zDimension).flatMap fun z =>
    (List.range grid.xDimension).map fun x =>
      ((x : ℕ) * grid.xSpacing,
       grid.height.getD (z * grid.xDimension + x) 0,
       (z : ℕ) * grid.zSpacing)

/-- The elevation-grid triangle array: two triangles per cell, with the `ccw`
flag selecting between the two windings the source writes. -/
def elevationGridTriangles (xDimension zDimension : ℕ) (ccw : Bool) : List (ℕ × ℕ × ℕ) :=
  (List.range (zDimension - 1)).flatMap fun z =>
    let current := z * xDimension
    let next := (z + 1) * xDimension
    (List.range (xDimension - 1)).flatMap fun x =>
      if ccw then
        [(x + current, x + next, x + 1 + next),
         (x + current, x + 1 + next, x + 1 + current)]
      else
        [(x + current, x + 1 + next, x + next),
         (x + current, x + 1 + current, x + 1 + next)]

/-- `MeshGenerator::generateTextureCoordinateForElevationGrid`. -/
noncomputable def generateTextureCoordinateForElevationGrid
    (mesh : SgMesh) (grid : ElevationGrid) : SgMesh :=
  let xmax : ℝ := grid.xSpacing * ((grid.xDimension : ℕ) - 1 : ℕ)
  let zmax : ℝ := grid.zSpacing * ((grid.zDimension : ℕ) - 1 : ℕ)
  { mesh with
      texCoords := mesh.vertices.map fun v => (v.1 / xmax, v.2.2 / zmax)
      texCoordIndices := mesh.triangleVertices.map fun i => (i : ℤ) }

/-- `MeshGenerator::generateElevationGrid`. -/
noncomputable def generateElevationGrid
    (g : MeshGenerator) (grid : ElevationGrid) (enableTextureCoordinate : Bool) :
    Option SgMesh :=
  if grid.xDimension * grid.zDimension ≠ grid.height.length then none
  else
    let mesh : SgMesh :=
      { vertices := elevationGridVertices grid
        triangles := elevationGridTriangles grid.xDimension grid.zDimension grid.ccw }
    let mesh := generateNormals g mesh grid.creaseAngle
    some (if enableTextureCoordinate then generateTextureCoordinateForElevationGrid mesh grid
          else mesh)

/-! ## Extrusion (`MeshGenerator::generateExtrusion`) -/

/-- The `Extrusion` geometry descriptor.  An orientation entry is an
axis-angle rotation `(angle, axis)` (`cnoid::AngleAxis`). -/
structure Extrusion where
  crossSection : List Vec2 := []
  spine : List Vec3 := []
  scale : List Vec2 := []
  orientation : List (ℝ × Vec3) := []
  creaseAngle : ℝ := 0
  beginCap : Bool := true
  endCap : Bool := true

/-- The raw tangent (`Yaxis`) and binormal candidate (`Zaxis`) computed for
spine index `i` in the `spineSize > 2` branch, by the three cases of the
source (first point, last point, interior point), each with its closed and
open variants.  `spineSize` is the closure-adjusted size. -/
def extrusionRawYZ (spine : List Vec3) (spineSize : ℕ) (isClosed : Bool) (i : ℕ) :
    Vec3 × Vec3 :=
  let at_ : ℕ → Vec3 := fun k => spine.getD k (0, 0, 0)
  if i = 0 then
    if isClosed then
      let spine1 := at_ (spineSize - 1)
      let spine2 := at_ 0
      let spine3 := at_ 1
      (vsub spine3 spine1, vcross (vsub spine3 spine2) (vsub spine1 spine2))
    else
      let spine1 := at_ 0
      let spine2 := at_ 1
      let spine3 := at_ 2
      (vsub spine2 spine1, vcross (vsub spine3 spine2) (vsub spine1 spine2))
  else if i = spineSize - 1 then
    if isClosed then
      let spine1 := at_ (spineSize - 2)
      let spine2 := at_ (spineSize - 1)
      let spine3 := at_ 0
      (vsub spine3 spine1, vcross (vsub spine3 spine2) (vsub spine1 spine2))
    else
      let spine1 := at_ (spineSize - 3)
      let spine2 := at_ (spineSize - 2)
      let spine3 := at_ (spineSize - 1)
      (vsub spine3 spine2, vcross (vsub spine3 spine2) (vsub spine1 spine2))
  else
    let spine1 := at_ (i - 1)
    let spine2 := at_ i
    let spine3 := at_ (i + 1)
    (vsub spine3 spine1, vcross (vsub spine3 spine2) (vsub spine1 spine2))

/-- The state threaded through the frame-computation loop: the last valid
binormal (`preZaxis`), the first index at which a binormal was defined
(`definedZaxis`, C++ `-1` as `none`), and the two axis arrays. -/
structure ExtrusionFrameState where
  preZaxis : Vec3
  definedZaxis : Option ℕ
  Yaxisarray : List Vec3
  Zaxisarray : List Vec3

open Classical in
/-- The frame-computation loop of `generateExtrusion`: in the `spineSize > 2`
branch each index contributes its raw axes, a zero binormal
(`!Zaxis.norm()`) inheriting the last valid one when any was defined; with
only 2 spine points the tangent is duplicated and no binormal exists. -/
noncomputable def extrusionFrames (spine : List Vec3) (spineSize : ℕ) (isClosed : Bool) :
    ExtrusionFrameState :=
  if 2 < spineSize then
    (List.range spineSize).foldl
      (fun st i =>
        let yz := extrusionRawYZ spine spineSize isClosed i
        let Yaxis := yz.1
        let Zaxis0 := yz.2
        if vnorm Zaxis0 = 0 then
          let Zaxis := if st.definedZaxis ≠ none then st.preZaxis else Zaxis0
          { st with
              Yaxisarray := st.Yaxisarray ++ [Yaxis]
              Zaxisarray := st.Zaxisarray ++ [Zaxis] }
        else
          { preZaxis := Zaxis0
            definedZaxis := if st.definedZaxis = none then some i else st.definedZaxis
            Yaxisarray := st.Yaxisarray ++ [Yaxis]
            Zaxisarray := st.Zaxisarray ++ [Zaxis0] })
      ⟨(0, 0, 0), none, [], []⟩
  else
    let Yaxis := vsub (spine.getD 1 (0, 0, 0)) (spine.getD 0 (0, 0, 0))
    ⟨(0, 0, 0), none, [Yaxis, Yaxis], []⟩

open Classical in
/-- The in-place adjustment of the binormal array in the placement loop:
indices before `definedZaxis` retroactively inherit the first defined
binormal, and each binormal whose dot product with the (already adjusted)
previous one is negative is sign-flipped. -/
noncomputable def adjustZaxes (Zarr : List Vec3) (definedZaxis : ℕ) : List Vec3 :=
  (List.range Zarr.length).foldl
    (fun acc i =>
      let zi0 := if i < definedZaxis then Zarr.getD definedZaxis (0, 0, 0)
                 else Zarr.getD i (0, 0, 0)
      let zi := if i ≠ 0 ∧ vdot zi0 (acc.getD (i - 1) (0, 0, 0)) < 0 then vsmul (-1) zi0
                else zi0
      acc ++ [zi])
    []

/-- The per-spine-point scale: `(1, 0, 1)` when no scale entries are supplied,
the single entry when one is supplied, the `i`-th entry otherwise. -/
def extrusionScaleAt (scale : List Vec2) (i : ℕ) : Vec3 :=
  if scale.length = 1 then ((scale.getD 0 (0, 0)).1, 0, (scale.getD 0 (0, 0)).2)
  else if 1 < scale.length then ((scale.getD i (0, 0)).1, 0, (scale.getD i (0, 0)).2)
  else (1, 0, 1)

/-- The per-spine-point orientation: identity (`AngleAxis(0.0, UnitZ)`) when no
entries are supplied, the single entry when one is supplied, the `i`-th entry
otherwise. -/
def extrusionOrientationAt (orientation : List (ℝ × Vec3)) (i : ℕ) : ℝ × Vec3 :=
  if orientation.length = 1 then orientation.getD 0 (0, (0, 0, 1))
  else if 1 < orientation.length then orientation.getD i (0, (0, 0, 1))
  else (0, (0, 0, 1))

/-- The local frame matrix `Scp` at spine index `i`: when no binormal was ever
defined, the single rotation mapping the canonical up-axis onto the tangent
(`AngleAxis(acos(y[1]), (y[2], 0, -y[0]))`); otherwise the column matrix of
`x = y × z`, the normalized tangent `y`, and the normalized adjusted binormal
`z`. -/
noncomputable def extrusionScp (frames : ExtrusionFrameState) (adjusted : List Vec3) (i : ℕ) :
    Mat3 :=
  let y := vnormalized (frames.Yaxisarray.getD i (0, 0, 0))
  match frames.definedZaxis with
  | none => angleAxisToMatrix (Real.arccos y.2.1) (y.2.2, 0, -y.1)
  | some _ =>
    let z := vnormalized (adjusted.getD i (0, 0, 0))
    let x := vcross y z
    ⟨x, y, z⟩

/-- The swept vertex array: for each spine index the scaled cross-section
point, rotated by the per-point orientation and the frame, translated to the
spine point — `vertex = Scp · Orientation · (scale ⊙ crossSectionPoint) +
spinePoint`. -/
noncomputable def extrusionVertices
    (extrusion : Extrusion) (spineSize crossSectionSize : ℕ) (isClosed : Bool) :
    List Vec3 :=
  let frames := extrusionFrames extrusion.spine spineSize isClosed
  let adjusted := adjustZaxes frames.Zaxisarray (frames.definedZaxis.getD 0)
  (List.range spineSize).flatMap fun i =>
    let Scp := extrusionScp frames adjusted i
    let spinePt := extrusion.spine.getD i (0, 0, 0)
    let scale := extrusionScaleAt extrusion.scale i
    let orientation := extrusionOrientationAt extrusion.orientation i
    (List.range crossSectionSize).map fun j =>
      let cs := extrusion.crossSection.getD j (0, 0)
      let v1 : Vec3 := (cs.1 * scale.1, 0, cs.2 * scale.2.2)
      vadd (matApply Scp (matApply (angleAxisToMatrix orientation.1 orientation.2) v1)) spinePt

/-- The quad-strip side triangles between consecutive spine rings, wrapping
around spine and cross-section closures via the `numSpinePoints` /
`numCrossPoints` loop bounds and the modular neighbor indices. -/
def extrusionSideTriangles (spineSize crossSectionSize numSpinePoints numCrossPoints : ℕ) :
    List (ℕ × ℕ × ℕ) :=
  (List.range (numSpinePoints - 1)).flatMap fun i =>
    let ii := (i + 1) % spineSize
    let upper := i * crossSectionSize
    let lower := ii * crossSectionSize
    (List.range (numCrossPoints - 1)).flatMap fun j =>
      let jj := (j + 1) % crossSectionSize
      [(j + upper, j + lower, jj + lower),
       (j + upper, jj + lower, jj + upper)]

/-- Modelled from the spec: the `Triangulator` collaborator — only declared in
the shown sources — "takes an ordered polygon (sequence of vertex indices
assumed planar/near-planar) and returns a fan/ear-clipped triangle index
list"; the fan output for an `N`-gon, as a flat list of `3·(N−2)` indices into
the polygon. -/
def triangulatorApply (polygon : List ℕ) : List ℕ :=
  (List.range (polygon.length - 2)).flatMap fun i => [0, i + 1, i + 2]

/-- The cap triangles appended from the triangulator's flat output: each index
triple is mapped through the polygon's vertex indices; the end cap
(`reversed = true`) swaps the last two vertices of every triangle. -/
def capTriangles (polygon tris : List ℕ) (reversed : Bool) : List (ℕ × ℕ × ℕ) :=
  (List.range (tris.length / 3)).map fun k =>
    let a := polygon.getD (tris.getD (3 * k) 0) 0
    let b := polygon.getD (tris.getD (3 * k + 1) 0) 0
    let c := polygon.getD (tris.getD (3 * k + 2) 0) 0
    if reversed then (a, c, b) else (a, b, c)

/-- The chord length between two 2D points. -/
noncomputable def chord2 (a b : Vec2) : ℝ :=
  Real.sqrt ((b.1 - a.1) ^ 2 + (b.2 - a.2) ^ 2)

/-- The chord length between two 3D points. -/
noncomputable def chord3 (a b : Vec3) : ℝ :=
  Real.sqrt ((b.1 - a.1) ^ 2 + (b.2.1 - a.2.1) ^ 2 + (b.2.2 - a.2.2) ^ 2)

/-- The cumulative chord-length array `s` over the cross-section (running sum
of the loop written in closed form: entry `i` is the sum of the first `i`
chords). -/
noncomputable def crossSectionCumLen (cs : List Vec2) : List ℝ :=
  (List.range cs.length).map fun i =>
    ((List.range i).map fun k => chord2 (cs.getD k (0, 0)) (cs.getD (k + 1) (0, 0))).sum

/-- The cumulative chord-length array `t` over the spine. -/
noncomputable def spineCumLen (spine : List Vec3) : List ℝ :=
  (List.range spine.length).map fun i =>
    ((List.range i).map fun k => chord3 (spine.getD k (0, 0, 0)) (spine.getD (k + 1) (0, 0, 0))).sum

/-- The bounding-box extent scan used for cap texture normalization, with the
source's update order per point: `xmax`, `xmin`, `zmax`, then
`zmin = std::min(xmin, z)` — the last of which reads the just-updated `xmin`
instead of the previous `zmin` (the min/max mixing slip flagged by the spec).
Returns `(xmin, xmax, zmin, zmax)`. -/
noncomputable def extrusionCapBBox (cs : List Vec2) : ℝ × ℝ × ℝ × ℝ :=
  let p0 := cs.getD 0 (0, 0)
  (cs.drop 1).foldl
    (fun st p =>
      let xmax := max st.2.1 p.1
      let xmin := min st.1 p.1
      let zmax := max st.2.2.2 p.2
      let zmin := min xmin p.2
      (xmin, xmax, zmin, zmax))
    (p0.1, p0.1, p0.2, p0.2)

/-- The begin-cap texture points: each raw cross-section point scaled into the
computed extent rectangle. -/
noncomputable def extrusionBeginCapUVs (cs : List Vec2) : List Vec2 :=
  let bb := extrusionCapBBox cs
  let xsize := bb.2.1 - bb.1
  let zsize := bb.2.2.2 - bb.2.2.1
  cs.map fun p => ((p.1 - bb.1) / xsize, (p.2 - bb.2.2.1) / zsize)

/-- The end-cap texture points: mirrored in the first coordinate. -/
noncomputable def extrusionEndCapUVs (cs : List Vec2) : List Vec2 :=
  let bb := extrusionCapBBox cs
  let xsize := bb.2.1 - bb.1
  let zsize := bb.2.2.2 - bb.2.2.1
  cs.map fun p => ((bb.2.1 - p.1) / xsize, (p.2 - bb.2.2.1) / zsize)

/-- `MeshGenerator::generateTextureCoordinateForExtrusion`: the side surface
gets chord-length-normalized coordinates over the raw cross-section and spine
arrays; when caps were generated, each cap appends its own coordinate block
and re-indexes the cap triangles past the side coordinates
(`triangleVertices[i] + endOfTexCoord`, the end cap shifted down by
`indexOfendCap` first). -/
noncomputable def generateTextureCoordinateForExtrusion
    (mesh : SgMesh) (crossSection : List Vec2) (spine : List Vec3)
    (numTriOfbeginCap numTriOfendCap indexOfendCap : ℕ) : SgMesh :=
  let spineSize := spine.length
  let crossSectionSize := crossSection.length
  let s := crossSectionCumLen crossSection
  let t := spineCumLen spine
  let slen := ((List.range (crossSectionSize - 1)).map fun k =>
    chord2 (crossSection.getD k (0, 0)) (crossSection.getD (k + 1) (0, 0))).sum
  let tlen := ((List.range (spineSize - 1)).map fun k =>
    chord3 (spine.getD k (0, 0, 0)) (spine.getD (k + 1) (0, 0, 0))).sum
  let sideTexCoords : List Vec2 :=
    (List.range spineSize).flatMap fun i =>
      (List.range crossSectionSize).map fun j =>
        (s.getD j 0 / slen, t.getD i 0 / tlen)
  let sideIndices : List ℤ :=
    (List.range (spineSize - 1)).flatMap fun i =>
      let upper := i * crossSectionSize
      let lower := (i + 1) * crossSectionSize
      (List.range (crossSectionSize - 1)).flatMap fun j =>
        [(j + upper : ℤ), (j + lower : ℤ), (j + 1 + lower : ℤ),
         (j + upper : ℤ), (j + 1 + lower : ℤ), (j + 1 + upper : ℤ)]
  if numTriOfbeginCap + numTriOfendCap = 0 then
    { mesh with texCoords := sideTexCoords, texCoordIndices := sideIndices }
  else
    let triangleVertices := mesh.triangleVertices
    let endCapE := triangleVertices.length
    let endCapS := endCapE - numTriOfendCap * 3
    let beginCapE := endCapS
    let beginCapS := beginCapE - numTriOfbeginCap * 3
    let texCoords1 :=
      if numTriOfbeginCap ≠ 0 then sideTexCoords ++ extrusionBeginCapUVs crossSection
      else sideTexCoords
    let indices1 :=
      if numTriOfbeginCap ≠ 0 then
        sideIndices ++
          ((List.range' beginCapS (beginCapE - beginCapS)).map fun i =>
            ((triangleVertices.getD i 0 : ℤ) + sideTexCoords.length))
      else sideIndices
    let texCoords2 :=
      if numTriOfendCap ≠ 0 then texCoords1 ++ extrusionEndCapUVs crossSection
      else texCoords1
    let indices2 :=
      if numTriOfendCap ≠ 0 then
        indices1 ++
          ((List.range' endCapS (endCapE - endCapS)).map fun i =>
            ((triangleVertices.getD i 0 : ℤ) - indexOfendCap + texCoords1.length))
      else indices1
    { mesh with texCoords := texCoords2, texCoordIndices := indices2 }

open Classical in
/-- `MeshGenerator::generateExtrusion`. -/
noncomputable def generateExtrusion
    (g : MeshGenerator) (extrusion : Extrusion) (enableTextureCoordinate : Bool) :
    Option SgMesh :=
  let spineSize0 := extrusion.spine.length
  let crossSectionSize0 := extrusion.crossSection.length
  if spineSize0 < 2 ∨ crossSectionSize0 < 2 then none
  else
    let isClosed :=
      extrusion.spine.getD 0 (0, 0, 0) = extrusion.spine.getD (spineSize0 - 1) (0, 0, 0)
    let spineSize := if isClosed then spineSize0 - 1 else spineSize0
    let isCrossSectionClosed :=
      extrusion.crossSection.getD 0 (0, 0) =
        extrusion.crossSection.getD (crossSectionSize0 - 1) (0, 0)
    let crossSectionSize :=
      if isCrossSectionClosed then crossSectionSize0 - 1 else crossSectionSize0
    if spineSize < 2 ∨ crossSectionSize < 2 then none
    else
      let vertices := extrusionVertices extrusion spineSize crossSectionSize isClosed
      let numSpinePoints := if isClosed then spineSize + 1 else spineSize
      let numCrossPoints :=
        if isCrossSectionClosed then crossSectionSize + 1 else crossSectionSize
      let sideTris :=
        extrusionSideTriangles spineSize crossSectionSize numSpinePoints numCrossPoints
      let beginPolygon := List.range crossSectionSize
      let beginTris :=
        if extrusion.beginCap ∧ ¬isClosed then
          capTriangles beginPolygon (triangulatorApply beginPolygon) false
        else []
      let numTriOfbeginCap :=
        if extrusion.beginCap ∧ ¬isClosed then (triangulatorApply beginPolygon).length / 3
        else 0
      let endPolygon := (List.range crossSectionSize).map fun i =>
        crossSectionSize * (spineSize - 1) + i
      let endTris :=
        if extrusion.endCap ∧ ¬isClosed then
          capTriangles endPolygon (triangulatorApply endPolygon) true
        else []
      let numTriOfendCap :=
        if extrusion.endCap ∧ ¬isClosed then (triangulatorApply endPolygon).length / 3
        else 0
      let mesh : SgMesh := { vertices := vertices, triangles := sideTris ++ beginTris ++ endTris }
      let mesh := generateNormals g mesh extrusion.creaseAngle
      some
        (if enableTextureCoordinate then
          generateTextureCoordinateForExtrusion mesh extrusion.crossSection extrusion.spine
            numTriOfbeginCap numTriOfendCap (crossSectionSize * (spineSize - 1))
        else mesh)

/-! ## Spec-side definitions

Definitions transcribed from the specification's wording, for comparison with
the embedded source. -/

open Classical in
/-- Following the spec's words: the effective spine point count — the spine is
closed exactly when its first and last points are exactly equal, and closure
reduces the effective count by one. -/
noncomputable def specEffectiveSpineCount (e : Extrusion) : ℕ :=
  if e.spine.head? = e.spine.getLast? then e.spine.length - 1 else e.spine.length

open Classical in
/-- Following the spec's words: the effective cross-section point count. -/
noncomputable def specEffectiveCrossSectionCount (e : Extrusion) : ℕ :=
  if e.crossSection.head? = e.crossSection.getLast? then e.crossSection.length - 1
  else e.crossSection.length

/-- The in-bounds predicate for one triangle against a vertex count. -/
def triangleInBounds (n : ℕ) (t : ℕ × ℕ × ℕ) : Prop :=
  t.1 < n ∧ t.2.1 < n ∧ t.2.2 < n

instance instDecidableTriangleInBounds (n : ℕ) (t : ℕ × ℕ × ℕ) :
    Decidable (triangleInBounds n t) :=
  inferInstanceAs (Decidable (t.1 < n ∧ t.2.1 < n ∧ t.2.2 < n))

/-- Every vertex index of every triangle of the mesh is within the vertex
array. -/
def meshIndicesValid (m : SgMesh) : Prop :=
  ∀ t ∈ m.triangles, triangleInBounds m.vertices.length t

/-- A generator configuration with the default division number and both
toggles enabled, used for the concrete evaluations below. -/
def gDefault : MeshGenerator :=
  { divisionNumber := 20, isNormalGenerationEnabled := true, isBoundingBoxUpdateEnabled := true }

/-! ## Helper lemmas -/

theorem length_flatMap_const {α : Type} (n c : ℕ) (f : ℕ → List α)
    (hf : ∀ i, (f i).length = c) : ((List.range n).flatMap f).length = n * c := by
  rw [List.length_flatMap]
  have : List.map (List.length ∘ f) (List.range n) = List.replicate n c := by
    rw [List.eq_replicate_iff]
    refine ⟨by simp, fun x hx => ?_⟩
    simp only [List.mem_map, Function.comp] at hx
    obtain ⟨i, _, hi⟩ := hx
    rw [← hi, hf]
  rw [this, List.sum_replicate, smul_eq_mul, mul_comm]

theorem mem_flatMap_range {α : Type} {n : ℕ} {f : ℕ → List α} {x : α}
    (h : x ∈ (List.range n).flatMap f) : ∃ i, i < n ∧ x ∈ f i := by
  simp only [List.mem_flatMap, List.mem_range] at h
  obtain ⟨i, hi, hx⟩ := h
  exact ⟨i, hi, hx⟩

theorem add_mul_lt_mul {j h i v : ℕ} (hj : j < h) (hi : i < v) : j + i * h < v * h :=
  calc j + i * h < h + i * h := by omega
  _ = (i + 1) * h := by ring
  _ ≤ v * h := Nat.mul_le_mul_right h hi

/-! ## C2 -/

/-- C2 (amended): any negative dimension makes `generateBox`,
`generateSphere`, `generateCylinder`, `generateCone` and `generateCapsule`
return a null mesh; `generateArrow` is excluded — it validates nothing and
returns the integration collaborator's (non-null) mesh. -/
theorem negative_dimensions_yield_null (g : MeshGenerator) (size : Vec3) (radius height : ℝ) :
    ((size.1 < 0 ∨ size.2.1 < 0 ∨ size.2.2 < 0) → generateBox g size = none) ∧
    (radius < 0 → generateSphere g radius = none) ∧
    (radius < 0 ∨ height < 0 →
      ∀ bottom top side, generateCylinder g radius height bottom top side = none) ∧
    (radius < 0 ∨ height < 0 → ∀ bottom side, generateCone g radius height bottom side = none) ∧
    (radius < 0 ∨ height < 0 → generateCapsule g radius height = none) := by
  refine ⟨fun h => ?_, fun h => ?_, fun h _ _ _ => ?_, fun h _ _ => ?_, fun h => ?_⟩
  · rw [generateBox, if_pos h]
  · rw [generateSphere, if_pos (Or.inl h)]
  · rw [generateCylinder, if_pos (by tauto)]
  · rw [generateCone, if_pos (by tauto)]
  · rw [generateCapsule, if_pos (by tauto)]

/-- Witness for C2's theorem at concrete negative inputs. -/
theorem negative_dimensions_yield_null_witness :
    generateBox gDefault (-1, 1, 1) = none ∧
    generateSphere gDefault (-1) = none ∧
    generateCylinder gDefault (-1) 1 true true true = none ∧
    generateCone gDefault (-1) 1 true true = none ∧
    generateCapsule gDefault (-1) 1 = none := by
  obtain ⟨h1, h2, h3, h4, h5⟩ := negative_dimensions_yield_null gDefault (-1, 1, 1) (-1) 1
  exact ⟨h1 (Or.inl (by norm_num)), h2 (by norm_num),
    h3 (Or.inl (by norm_num)) true true true, h4 (Or.inl (by norm_num)) true true,
    h5 (Or.inl (by norm_num))⟩

/-- C2 counterexample: `generateArrow` with negative radii does not return a
null mesh — the sub-generator meshes are null, so the integrated mesh it
returns is merely empty. -/
theorem generateArrow_negative_not_null :
    (generateArrow gDefault (-1) 1 (-1) 1).vertices = [] ∧
    (generateArrow gDefault (-1) 1 (-1) 1).triangles = [] := by
  have hcone : generateCone gDefault (-1) 1 true true = none := by
    rw [generateCone, if_pos (Or.inl (by norm_num))]
  have hcyl : generateCylinder gDefault (-1) 1 true false true = none := by
    rw [generateCylinder, if_pos (Or.inr (by norm_num))]
  rw [generateArrow, hcone, hcyl]
  constructor <;> rfl

/-! ## C3 -/

/-- C3 (amended): with a division number below 4 only `generateSphere` fails;
`generateCylinder`, `generateCone` and `generateCapsule` perform no
tessellation-resolution check and still return a mesh for non-negative
dimensions. -/
theorem small_division_only_sphere_fails (g : MeshGenerator)
    (hd : g.divisionNumber < 4) (radius height : ℝ)
    (hr : 0 ≤ radius) (hh : 0 ≤ height) :
    (generateSphere g radius = none) ∧
    (∀ bottom top side, (generateCylinder g radius height bottom top side).isSome) ∧
    (∀ bottom side, (generateCone g radius height bottom side).isSome) ∧
    ((generateCapsule g radius height).isSome) := by
  refine ⟨?_, fun _ _ _ => ?_, fun _ _ => ?_, ?_⟩
  · rw [generateSphere, if_pos (Or.inr hd)]
  · rw [generateCylinder, if_neg (by push_neg; constructor <;> linarith)]
    rfl
  · rw [generateCone, if_neg (by push_neg; constructor <;> linarith)]
    rfl
  · rw [generateCapsule, if_neg (by push_neg; constructor <;> linarith)]
    rfl

/-- Witness for C3's theorem with division number 3. -/
theorem small_division_only_sphere_fails_witness :
    (generateSphere ⟨3, true, true⟩ 1 = none) ∧
    ((generateCylinder ⟨3, true, true⟩ 1 1 true true true).isSome) ∧
    ((generateCone ⟨3, true, true⟩ 1 1 true true).isSome) ∧
    ((generateCapsule ⟨3, true, true⟩ 1 1).isSome) := by
  obtain ⟨h1, h2, h3, h4⟩ :=
    small_division_only_sphere_fails ⟨3, true, true⟩ (by norm_num) 1 1 (by norm_num) (by norm_num)
  exact ⟨h1, h2 true true true, h3 true true, h4⟩

/-- C3 counterexample: `generateCylinder` with division number 3 returns a
non-null mesh, though the claim demands a null return below 4. -/
theorem generateCylinder_small_division_not_null :
    (generateCylinder ⟨3, true, true⟩ 1 1 true true true).isSome = true := by
  rw [generateCylinder, if_neg (by push_neg; constructor <;> norm_num)]
  rfl

theorem generateNormals_creaseAngleUsed (g : MeshGenerator) (m : SgMesh) (a : ℝ)
    (henab : g.isNormalGenerationEnabled = true) :
    (generateNormals g m a).creaseAngleUsed = some a := by
  rw [generateNormals, if_pos henab]

theorem texExtrusion_creaseAngleUsed (mesh : SgMesh) (cs : List Vec2) (spine : List Vec3)
    (a b c : ℕ) :
    (generateTextureCoordinateForExtrusion mesh cs spine a b c).creaseAngleUsed =
      mesh.creaseAngleUsed := by
  rw [generateTextureCoordinateForExtrusion]
  dsimp only
  split <;> rfl

theorem texElevationGrid_creaseAngleUsed (mesh : SgMesh) (grid : ElevationGrid) :
    (generateTextureCoordinateForElevationGrid mesh grid).creaseAngleUsed =
      mesh.creaseAngleUsed := rfl

theorem head_eq_getLast_iff_getD {α : Type} (l : List α) (d : α) (h : l ≠ []) :
    (l.head? = l.getLast?) ↔ l.getD 0 d = l.getD (l.length - 1) d := by
  have h0 : 0 < l.length := List.length_pos.mpr h
  have hl : l.length - 1 < l.length := by omega
  rw [List.head?_eq_getElem?, List.getLast?_eq_getElem?,
    List.getD_eq_getElem?_getD, List.getD_eq_getElem?_getD,
    List.getElem?_eq_getElem h0, List.getElem?_eq_getElem hl]
  simp

theorem specEffectiveSpineCount_le (e : Extrusion) :
    specEffectiveSpineCount e ≤ e.spine.length := by
  rw [specEffectiveSpineCount]
  split <;> omega

theorem specEffectiveCrossSectionCount_le (e : Extrusion) :
    specEffectiveCrossSectionCount e ≤ e.crossSection.length := by
  rw [specEffectiveCrossSectionCount]
  split <;> omega

/-- For a non-empty list, `head? = getLast?` restated through `getD`. -/
theorem spine_closed_getD (e : Extrusion) (h : e.spine ≠ []) :
    specEffectiveSpineCount e =
      if e.spine.getD 0 (0, 0, 0) = e.spine.getD (e.spine.length - 1) (0, 0, 0) then
        e.spine.length - 1
      else e.spine.length := by
  have hiff := head_eq_getLast_iff_getD e.spine (0, 0, 0) h
  rw [specEffectiveSpineCount]
  by_cases hcl : e.spine.head? = e.spine.getLast?
  · rw [if_pos hcl, if_pos (hiff.mp hcl)]
  · rw [if_neg hcl, if_neg (fun hx => hcl (hiff.mpr hx))]

/-- For a non-empty cross-section, closure restated through `getD`. -/
theorem crossSection_closed_getD (e : Extrusion) (h : e.crossSection ≠ []) :
    specEffectiveCrossSectionCount e =
      if e.crossSection.getD 0 (0, 0) =
          e.crossSection.getD (e.crossSection.length - 1) (0, 0) then
        e.crossSection.length - 1
      else e.crossSection.length := by
  have hiff := head_eq_getLast_iff_getD e.crossSection (0, 0) h
  rw [specEffectiveCrossSectionCount]
  by_cases hcl : e.crossSection.head? = e.crossSection.getLast?
  · rw [if_pos hcl, if_pos (hiff.mp hcl)]
  · rw [if_neg hcl, if_neg (fun hx => hcl (hiff.mpr hx))]

/-- The two early-return checks of `generateExtrusion` are exactly the spec's
"fewer than 2 effective points" condition. -/
theorem generateExtrusion_eq_none_iff (g : MeshGenerator) (e : Extrusion)
    (enableTextureCoordinate : Bool) :
    generateExtrusion g e enableTextureCoordinate = none ↔
      specEffectiveSpineCount e < 2 ∨ specEffectiveCrossSectionCount e < 2 := by
  have hsle := specEffectiveSpineCount_le e
  have hcle := specEffectiveCrossSectionCount_le e
  rw [generateExtrusion]
  dsimp only
  split
  · next h1 =>
    constructor
    · intro _
      omega
    · intro _
      rfl
  · next h1 =>
    push_neg at h1
    have hsne : e.spine ≠ [] := by
      intro hnil
      rw [hnil] at h1
      simp at h1
    have hcne : e.crossSection ≠ [] := by
      intro hnil
      rw [hnil] at h1
      simp at h1
    rw [← spine_closed_getD e hsne, ← crossSection_closed_getD e hcne]
    split
    · next h2 =>
      exact ⟨fun _ => h2, fun _ => rfl⟩
    · next h2 =>
      constructor
      · intro hx
        exact absurd hx (by simp)
      · intro hx
        exact absurd hx h2

/-- When both effective counts are at least 2 the extrusion succeeds and, with
normal generation enabled, the normal-generation collaborator receives the
descriptor's crease angle. -/
theorem generateExtrusion_creaseAngleUsed (g : MeshGenerator) (e : Extrusion)
    (enableTextureCoordinate : Bool) (henab : g.isNormalGenerationEnabled = true)
    (h1 : 2 ≤ specEffectiveSpineCount e) (h2 : 2 ≤ specEffectiveCrossSectionCount e) :
    (generateExtrusion g e enableTextureCoordinate).map SgMesh.creaseAngleUsed =
      some (some e.creaseAngle) := by
  have hsle := specEffectiveSpineCount_le e
  have hcle := specEffectiveCrossSectionCount_le e
  rw [generateExtrusion]
  dsimp only
  split
  · next hcond => omega
  · next hcond =>
    push_neg at hcond
    have hsne : e.spine ≠ [] := by
      intro hnil
      rw [hnil] at hcond
      simp at hcond
    have hcne : e.crossSection ≠ [] := by
      intro hnil
      rw [hnil] at hcond
      simp at hcond
    rw [← spine_closed_getD e hsne, ← crossSection_closed_getD e hcne]
    rw [if_neg (by omega)]
    rw [Option.map_some']
    congr 1
    split
    · rw [texExtrusion_creaseAngleUsed, generateNormals_creaseAngleUsed _ _ _ henab]
    · rw [generateNormals_creaseAngleUsed _ _ _ henab]

/-! ## C8 -/

/-- C8 (amended): with normal generation enabled, the crease angle passed to
the Normal Generator is 0 for the box, π/2 for cylinder, cone and capsule,
π for sphere and torus, and the descriptor's own crease angle for the
elevation grid and the extrusion; the disc never invokes the Normal Generator
at all (it writes a single `+Z` normal directly). -/
theorem crease_angles (g : MeshGenerator) (henab : g.isNormalGenerationEnabled = true) :
    (∀ size : Vec3, 0 ≤ size.1 → 0 ≤ size.2.1 → 0 ≤ size.2.2 →
      (generateBox g size).map SgMesh.creaseAngleUsed = some (some 0)) ∧
    (∀ radius : ℝ, 0 ≤ radius → 4 ≤ g.divisionNumber →
      (generateSphere g radius).map SgMesh.creaseAngleUsed = some (some Real.pi)) ∧
    (∀ radius height : ℝ, 0 ≤ radius → 0 ≤ height → ∀ bottom top side,
      (generateCylinder g radius height bottom top side).map SgMesh.creaseAngleUsed =
        some (some (Real.pi / 2))) ∧
    (∀ radius height : ℝ, 0 ≤ radius → 0 ≤ height → ∀ bottom side,
      (generateCone g radius height bottom side).map SgMesh.creaseAngleUsed =
        some (some (Real.pi / 2))) ∧
    (∀ radius height : ℝ, 0 ≤ radius → 0 ≤ height →
      (generateCapsule g radius height).map SgMesh.creaseAngleUsed =
        some (some (Real.pi / 2))) ∧
    (∀ radius crossSectionRadius : ℝ,
      (generateTorus g radius crossSectionRadius).creaseAngleUsed = some Real.pi) ∧
    (∀ (grid : ElevationGrid) (tex : Bool),
      grid.xDimension * grid.zDimension = grid.height.length →
      (generateElevationGrid g grid tex).map SgMesh.creaseAngleUsed =
        some (some grid.creaseAngle)) ∧
    (∀ (e : Extrusion) (tex : Bool),
      2 ≤ specEffectiveSpineCount e → 2 ≤ specEffectiveCrossSectionCount e →
      (generateExtrusion g e tex).map SgMesh.creaseAngleUsed = some (some e.creaseAngle)) ∧
    (∀ radius innerRadius : ℝ, 0 < innerRadius → innerRadius < radius →
      (generateDisc g radius innerRadius).map SgMesh.creaseAngleUsed = some none) := by
  refine ⟨fun size hx hy hz => ?_, fun r hr hd => ?_, fun r h hr hh b t s => ?_,
    fun r h hr hh b s => ?_, fun r h hr hh => ?_, fun r cr => ?_, fun grid tex hvalid => ?_,
    fun e tex h1 h2 => generateExtrusion_creaseAngleUsed g e tex henab h1 h2,
    fun r ir hir hr => ?_⟩
  · rw [generateBox, if_neg (by push_neg; refine ⟨by linarith, by linarith, by linarith⟩),
      Option.map_some', generateNormals_creaseAngleUsed _ _ _ henab]
  · rw [generateSphere, if_neg (by push_neg; exact ⟨by linarith, by omega⟩)]
    dsimp only
    rw [Option.map_some', generateNormals_creaseAngleUsed _ _ _ henab]
  · rw [generateCylinder, if_neg (by push_neg; constructor <;> linarith),
      Option.map_some', generateNormals_creaseAngleUsed _ _ _ henab]
  · rw [generateCone, if_neg (by push_neg; constructor <;> linarith),
      Option.map_some', generateNormals_creaseAngleUsed _ _ _ henab]
  · rw [generateCapsule, if_neg (by push_neg; constructor <;> linarith)]
    dsimp only
    rw [Option.map_some', generateNormals_creaseAngleUsed _ _ _ henab]
  · rw [generateTorus, generateTorus4]
    rw [generateNormals_creaseAngleUsed _ _ _ henab]
  · rw [generateElevationGrid, if_neg (by omega)]
    dsimp only
    rw [Option.map_some']
    congr 1
    split
    · rw [texElevationGrid_creaseAngleUsed, generateNormals_creaseAngleUsed _ _ _ henab]
    · rw [generateNormals_creaseAngleUsed _ _ _ henab]
  · rw [generateDisc, if_neg (by push_neg; constructor <;> linarith)]
    rfl

/-- Witness for C8's theorem at concrete inputs. -/
theorem crease_angles_witness :
    (generateBox gDefault (1, 1, 1)).map SgMesh.creaseAngleUsed = some (some 0) ∧
    (generateSphere gDefault 1).map SgMesh.creaseAngleUsed = some (some Real.pi) ∧
    (generateCapsule gDefault 1 1).map SgMesh.creaseAngleUsed = some (some (Real.pi / 2)) ∧
    (generateDisc gDefault 2 1).map SgMesh.creaseAngleUsed = some none := by
  obtain ⟨hbox, hsph, _, _, hcap, _, _, _, hdisc⟩ := crease_angles gDefault rfl
  exact ⟨hbox (1, 1, 1) (by norm_num) (by norm_num) (by norm_num),
    hsph 1 (by norm_num) (by decide),
    hcap 1 1 (by norm_num) (by norm_num),
    hdisc 2 1 (by norm_num) (by norm_num)⟩

/-- C8 counterexample: `generateDisc` (normal generation enabled) does not
invoke the Normal Generator, although the claim says the disc invokes it with
crease angle 0. -/
theorem generateDisc_no_normal_generation :
    (generateDisc gDefault 2 1).map SgMesh.creaseAngleUsed = some none ∧
    (generateDisc gDefault 2 1).map SgMesh.creaseAngleUsed ≠ some (some 0) := by
  have h : (generateDisc gDefault 2 1).map SgMesh.creaseAngleUsed = some none := by
    rw [generateDisc, if_neg (by push_neg; constructor <;> norm_num)]
    rfl
  exact ⟨h, by rw [h]; simp⟩

/-! ## C9 -/

theorem elevationGridTriangles_length (x z : ℕ) (ccw : Bool) :
    (elevationGridTriangles x z ccw).length = (z - 1) * ((x - 1) * 2) := by
  rw [elevationGridTriangles]
  apply length_flatMap_const
  intro i
  apply length_flatMap_const
  intro j
  split <;> rfl

/-- C9 (amended): a valid elevation grid yields exactly two triangles per grid
cell, and the `ccw` flag controls only the winding: the triangle list with
`ccw = false` is the `ccw = true` list with the last two vertices of every
triangle swapped, so both windings build each cell's triangles on the same
diagonals. -/
theorem elevationGrid_two_triangles_per_cell_winding
    (g : MeshGenerator) (grid : ElevationGrid) (tex : Bool)
    (hvalid : grid.xDimension * grid.zDimension = grid.height.length) :
    ((generateElevationGrid g grid tex).map fun m => m.triangles.length) =
      some ((grid.zDimension - 1) * ((grid.xDimension - 1) * 2)) ∧
    (∀ x z : ℕ, elevationGridTriangles x z false =
      (elevationGridTriangles x z true).map fun t => (t.1, t.2.2, t.2.1)) := by
  constructor
  · rw [generateElevationGrid, if_neg (by omega)]
    dsimp only
    rw [Option.map_some']
    congr 1
    have htris : ∀ m : SgMesh, ∀ gr : ElevationGrid,
        (generateTextureCoordinateForElevationGrid m gr).triangles = m.triangles :=
      fun _ _ => rfl
    split
    · rw [htris]
      rw [generateNormals]
      split <;> exact elevationGridTriangles_length _ _ _
    · rw [generateNormals]
      split <;> exact elevationGridTriangles_length _ _ _
  · intro x z
    rw [elevationGridTriangles, elevationGridTriangles, List.map_flatMap]
    congr 1
    funext zi
    rw [List.map_flatMap]
    congr 1

/-- Witness for C9's theorem on a concrete 3×2 grid. -/
theorem elevationGrid_two_triangles_per_cell_winding_witness :
    ((generateElevationGrid gDefault
        { xDimension := 3, zDimension := 2, xSpacing := 1, zSpacing := 1,
          height := [0, 0, 0, 0, 0, 0], ccw := true, creaseAngle := 0 } false).map
        fun m => m.triangles.length) = some 4 := by
  have h := (elevationGrid_two_triangles_per_cell_winding gDefault
    { xDimension := 3, zDimension := 2, xSpacing := 1, zSpacing := 1,
      height := [0, 0, 0, 0, 0, 0], ccw := true, creaseAngle := 0 } false (by decide)).1
  simpa using h

/-- C9 counterexample: on a 2×2 grid the first triangle emitted with
`ccw = true` is `(0, 2, 3)` and with `ccw = false` it is `(0, 3, 2)` — the
same vertex set, hence the same cell diagonal, merely the opposite winding;
the claim says the two are built on different diagonals. -/
theorem elevationGrid_ccw_same_diagonal :
    ((generateElevationGrid gDefault
        { xDimension := 2, zDimension := 2, xSpacing := 1, zSpacing := 1,
          height := [0, 0, 0, 0], ccw := true, creaseAngle := 0 } false).map
        fun m => m.triangles.head?) = some (some (0, 2, 3)) ∧
    ((generateElevationGrid gDefault
        { xDimension := 2, zDimension := 2, xSpacing := 1, zSpacing := 1,
          height := [0, 0, 0, 0], ccw := false, creaseAngle := 0 } false).map
        fun m => m.triangles.head?) = some (some (0, 3, 2)) ∧
    ({0, 2, 3} : Finset ℕ) = ({0, 3, 2} : Finset ℕ) := by
  have htrue : gDefault.isNormalGenerationEnabled = true := rfl
  refine ⟨?_, ?_, by decide⟩ <;>
  · rw [generateElevationGrid, if_neg (by decide)]
    dsimp only
    rw [Option.map_some', if_neg (show ¬(false = true) by simp), generateNormals,
      if_pos htrue]
    rfl

/-! ## Count lemmas for the samplers -/

theorem generateNormals_vertices (g : MeshGenerator) (m : SgMesh) (a : ℝ) :
    (generateNormals g m a).vertices = m.vertices := by
  rw [generateNormals]
  split <;> rfl

theorem generateNormals_triangles (g : MeshGenerator) (m : SgMesh) (a : ℝ) :
    (generateNormals g m a).triangles = m.triangles := by
  rw [generateNormals]
  split <;> rfl

theorem sphereVertices_length (r : ℝ) (vdn hdn : ℕ) :
    (sphereVertices r vdn hdn).length = (vdn - 1) * hdn + 2 := by
  rw [sphereVertices, List.length_append,
    length_flatMap_const (vdn - 1) hdn _ (fun i => by simp)]
  rfl

theorem sphere_band_length (vdn hdn : ℕ) :
    ((List.range (vdn - 2)).flatMap fun i =>
      (List.range hdn).flatMap fun j =>
        [(j + i * hdn, (j + 1) % hdn + (i + 1) * hdn, j + (i + 1) * hdn),
         (j + i * hdn, (j + 1) % hdn + i * hdn, (j + 1) % hdn + (i + 1) * hdn)]).length =
      (vdn - 2) * (hdn * 2) := by
  apply length_flatMap_const
  intro i
  apply length_flatMap_const
  intro j
  rfl

theorem sphereTriangles_length (vdn hdn : ℕ) (h2 : 2 ≤ vdn) :
    (sphereTriangles vdn hdn).length = (vdn - 1) * hdn * 2 := by
  rw [sphereTriangles]
  rw [List.length_append, List.length_append, List.length_map, List.length_range,
    sphere_band_length, List.length_map, List.length_range]
  obtain ⟨k, rfl⟩ : ∃ k, vdn = k + 2 := ⟨vdn - 2, by omega⟩
  have e1 : k + 2 - 2 = k := by omega
  have e2 : k + 2 - 1 = k + 1 := by omega
  rw [e1, e2]
  ring

theorem cylinderVertices_length (r h : ℝ) (d : ℕ) :
    (cylinderVertices r h d).length = 2 * d + 2 := by
  rw [cylinderVertices]
  simp only [List.length_append, List.length_map, List.length_range,
    List.length_cons, List.length_nil]
  omega

theorem cylinderTriangles_length (d : ℕ) (bottom top side : Bool) :
    (cylinderTriangles d bottom top side).length =
      d * ((if top then 1 else 0) + (if side then 2 else 0) + (if bottom then 1 else 0)) := by
  rw [cylinderTriangles]
  apply length_flatMap_const
  intro i
  simp only [List.length_append]
  congr 1
  · congr 1 <;> split <;> rfl
  · split <;> rfl

theorem coneVertices_length (r h : ℝ) (d : ℕ) :
    (coneVertices r h d).length = d + 2 := by
  rw [coneVertices]
  simp only [List.length_append, List.length_map, List.length_range,
    List.length_cons, List.length_nil]

theorem coneTriangles_length (d : ℕ) (bottom side : Bool) :
    (coneTriangles d bottom side).length =
      d * ((if side then 1 else 0) + (if bottom then 1 else 0)) := by
  rw [coneTriangles]
  apply length_flatMap_const
  intro i
  simp only [List.length_append]
  congr 1 <;> split <;> rfl

theorem capsuleVertices_length (r h : ℝ) (vdn hdn : ℕ) :
    (capsuleVertices r h vdn hdn).length = vdn * hdn + 2 := by
  rw [capsuleVertices, List.length_append,
    length_flatMap_const vdn hdn _ (fun i => by simp)]
  rfl

theorem capsule_band_length (vdn hdn : ℕ) :
    ((List.range (vdn - 1)).flatMap fun i =>
      (List.range hdn).flatMap fun j =>
        [(j + i * hdn, (j + 1) % hdn + (i + 1) * hdn, j + (i + 1) * hdn),
         (j + i * hdn, (j + 1) % hdn + i * hdn, (j + 1) % hdn + (i + 1) * hdn)]).length =
      (vdn - 1) * (hdn * 2) := by
  apply length_flatMap_const
  intro i
  apply length_flatMap_const
  intro j
  rfl

theorem capsuleTriangles_length (vdn hdn : ℕ) (h1 : 1 ≤ vdn) :
    (capsuleTriangles vdn hdn).length = vdn * hdn * 2 := by
  rw [capsuleTriangles]
  rw [List.length_append, List.length_append, List.length_map, List.length_range,
    capsule_band_length, List.length_map, List.length_range]
  obtain ⟨k, rfl⟩ : ∃ k, vdn = k + 1 := ⟨vdn - 1, by omega⟩
  have e1 : k + 1 - 1 = k := by omega
  rw [e1]
  ring

/-! ## C10 -/

theorem sphereVertices_all_zero (vdn hdn : ℕ) :
    ∀ v ∈ sphereVertices 0 vdn hdn, v = ((0 : ℝ), (0 : ℝ), (0 : ℝ)) := by
  intro v hv
  rw [sphereVertices] at hv
  rcases List.mem_append.mp hv with h | h
  · obtain ⟨i, hi, hv2⟩ := mem_flatMap_range h
    obtain ⟨j, hj, rfl⟩ := List.mem_map.mp hv2
    simp
  · simp only [List.mem_cons, List.mem_singleton] at h
    rcases h with rfl | rfl | hf
    · simp
    · norm_num
    · exact absurd hf (List.not_mem_nil _)

theorem cylinderVertices_all_zero (d : ℕ) :
    ∀ v ∈ cylinderVertices 0 0 d, v = ((0 : ℝ), (0 : ℝ), (0 : ℝ)) := by
  intro v hv
  rw [cylinderVertices] at hv
  rcases List.mem_append.mp hv with h | h
  · rcases List.mem_append.mp h with h2 | h2
    · obtain ⟨j, hj, rfl⟩ := List.mem_map.mp h2
      norm_num
    · obtain ⟨j, hj, rfl⟩ := List.mem_map.mp h2
      norm_num
  · simp only [List.mem_cons, List.mem_singleton] at h
    rcases h with rfl | rfl | hf
    · norm_num
    · norm_num
    · exact absurd hf (List.not_mem_nil _)

theorem coneVertices_all_zero (d : ℕ) :
    ∀ v ∈ coneVertices 0 0 d, v = ((0 : ℝ), (0 : ℝ), (0 : ℝ)) := by
  intro v hv
  rw [coneVertices] at hv
  rcases List.mem_append.mp hv with h | h
  · obtain ⟨j, hj, rfl⟩ := List.mem_map.mp h
    norm_num
  · simp only [List.mem_cons, List.mem_singleton] at h
    rcases h with rfl | rfl | hf
    · norm_num
    · norm_num
    · exact absurd hf (List.not_mem_nil _)

theorem capsuleVertices_all_zero (vdn hdn : ℕ) :
    ∀ v ∈ capsuleVertices 0 0 vdn hdn, v = ((0 : ℝ), (0 : ℝ), (0 : ℝ)) := by
  intro v hv
  rw [capsuleVertices] at hv
  rcases List.mem_append.mp hv with h | h
  · obtain ⟨i, hi, hv2⟩ := mem_flatMap_range h
    obtain ⟨j, hj, rfl⟩ := List.mem_map.mp hv2
    refine Prod.ext (by norm_num) (Prod.ext ?_ (by norm_num))
    dsimp only
    rw [zero_mul, zero_add]
    split <;> norm_num
  · simp only [List.mem_cons, List.mem_singleton] at h
    rcases h with rfl | rfl | hf
    · norm_num
    · norm_num
    · exact absurd hf (List.not_mem_nil _)

theorem boxVertices_all_zero :
    ∀ v ∈ boxVertices (0, 0, 0), v = ((0 : ℝ), (0 : ℝ), (0 : ℝ)) := by
  intro v hv
  rw [boxVertices] at hv
  dsimp only at hv
  norm_num at hv
  rcases hv with rfl | rfl | rfl | rfl | rfl | rfl | rfl | rfl
  all_goals norm_num

/-- C10: zero dimensions pass validation — only strictly negative values are
rejected — and the zero-dimension meshes have the same vertex and triangle
counts as any positive-dimension mesh of the same shape, with every vertex at
the origin. -/
theorem zero_dimensions_accepted (g : MeshGenerator) (h4 : 4 ≤ g.divisionNumber) :
    (((generateBox g (0, 0, 0)).map fun m => (m.vertices.length, m.triangles.length)) =
        some (8, 12) ∧
      (∀ m, generateBox g (0, 0, 0) = some m → ∀ v ∈ m.vertices, v = ((0:ℝ), (0:ℝ), (0:ℝ))) ∧
      (∀ size : Vec3, 0 < size.1 → 0 < size.2.1 → 0 < size.2.2 →
        ((generateBox g size).map fun m => (m.vertices.length, m.triangles.length)) =
          some (8, 12))) ∧
    (((generateSphere g 0).map fun m => (m.vertices.length, m.triangles.length)) =
        some ((g.divisionNumber / 2 - 1) * g.divisionNumber + 2,
          (g.divisionNumber / 2 - 1) * g.divisionNumber * 2) ∧
      (∀ m, generateSphere g 0 = some m → ∀ v ∈ m.vertices, v = ((0:ℝ), (0:ℝ), (0:ℝ))) ∧
      (∀ radius : ℝ, 0 < radius →
        ((generateSphere g radius).map fun m => (m.vertices.length, m.triangles.length)) =
          some ((g.divisionNumber / 2 - 1) * g.divisionNumber + 2,
            (g.divisionNumber / 2 - 1) * g.divisionNumber * 2))) ∧
    (((generateCylinder g 0 0 true true true).map
          fun m => (m.vertices.length, m.triangles.length)) =
        some (2 * g.divisionNumber + 2, g.divisionNumber * 4) ∧
      (∀ m, generateCylinder g 0 0 true true true = some m →
        ∀ v ∈ m.vertices, v = ((0:ℝ), (0:ℝ), (0:ℝ))) ∧
      (∀ radius height : ℝ, 0 < radius → 0 < height →
        ((generateCylinder g radius height true true true).map
            fun m => (m.vertices.length, m.triangles.length)) =
          some (2 * g.divisionNumber + 2, g.divisionNumber * 4))) ∧
    (((generateCone g 0 0 true true).map fun m => (m.vertices.length, m.triangles.length)) =
        some (g.divisionNumber + 2, g.divisionNumber * 2) ∧
      (∀ m, generateCone g 0 0 true true = some m →
        ∀ v ∈ m.vertices, v = ((0:ℝ), (0:ℝ), (0:ℝ))) ∧
      (∀ radius height : ℝ, 0 < radius → 0 < height →
        ((generateCone g radius height true true).map
            fun m => (m.vertices.length, m.triangles.length)) =
          some (g.divisionNumber + 2, g.divisionNumber * 2))) ∧
    (((generateCapsule g 0 0).map fun m => (m.vertices.length, m.triangles.length)) =
        some (capsuleVdn g.divisionNumber * g.divisionNumber + 2,
          capsuleVdn g.divisionNumber * g.divisionNumber * 2) ∧
      (∀ m, generateCapsule g 0 0 = some m →
        ∀ v ∈ m.vertices, v = ((0:ℝ), (0:ℝ), (0:ℝ))) ∧
      (∀ radius height : ℝ, 0 < radius → 0 < height →
        ((generateCapsule g radius height).map
            fun m => (m.vertices.length, m.triangles.length)) =
          some (capsuleVdn g.divisionNumber * g.divisionNumber + 2,
            capsuleVdn g.divisionNumber * g.divisionNumber * 2))) := by
  have hvdn2 : 2 ≤ g.divisionNumber / 2 := by omega
  have hcvdn1 : 1 ≤ capsuleVdn g.divisionNumber := by
    rw [capsuleVdn]
    split <;> omega
  have hboxCounts : ∀ size : Vec3, ¬(size.1 < 0 ∨ size.2.1 < 0 ∨ size.2.2 < 0) →
      ((generateBox g size).map fun m => (m.vertices.length, m.triangles.length)) =
        some (8, 12) := by
    intro size hc
    rw [generateBox, if_neg hc, Option.map_some']
    congr 1
    rw [generateNormals_vertices, generateNormals_triangles]
    rfl
  have hsphCounts : ∀ radius : ℝ, ¬(radius < 0) →
      ((generateSphere g radius).map fun m => (m.vertices.length, m.triangles.length)) =
        some ((g.divisionNumber / 2 - 1) * g.divisionNumber + 2,
          (g.divisionNumber / 2 - 1) * g.divisionNumber * 2) := by
    intro radius hc
    rw [generateSphere, if_neg (by push_neg; exact ⟨by linarith, by omega⟩)]
    dsimp only
    rw [Option.map_some']
    congr 1
    rw [generateNormals_vertices, generateNormals_triangles]
    dsimp only
    rw [sphereVertices_length, sphereTriangles_length _ _ hvdn2]
  have hcylCounts : ∀ radius height : ℝ, ¬(height < 0 ∨ radius < 0) →
      ((generateCylinder g radius height true true true).map
          fun m => (m.vertices.length, m.triangles.length)) =
        some (2 * g.divisionNumber + 2, g.divisionNumber * 4) := by
    intro radius height hc
    rw [generateCylinder, if_neg hc, Option.map_some']
    congr 1
    rw [generateNormals_vertices, generateNormals_triangles]
    dsimp only
    rw [cylinderVertices_length, cylinderTriangles_length]
    norm_num
  have hconeCounts : ∀ radius height : ℝ, ¬(radius < 0 ∨ height < 0) →
      ((generateCone g radius height true true).map
          fun m => (m.vertices.length, m.triangles.length)) =
        some (g.divisionNumber + 2, g.divisionNumber * 2) := by
    intro radius height hc
    rw [generateCone, if_neg hc, Option.map_some']
    congr 1
    rw [generateNormals_vertices, generateNormals_triangles]
    dsimp only
    rw [coneVertices_length, coneTriangles_length]
    norm_num
  have hcapCounts : ∀ radius height : ℝ, ¬(height < 0 ∨ radius < 0) →
      ((generateCapsule g radius height).map
          fun m => (m.vertices.length, m.triangles.length)) =
        some (capsuleVdn g.divisionNumber * g.divisionNumber + 2,
          capsuleVdn g.divisionNumber * g.divisionNumber * 2) := by
    intro radius height hc
    rw [generateCapsule, if_neg hc]
    dsimp only
    rw [Option.map_some']
    congr 1
    rw [generateNormals_vertices, generateNormals_triangles]
    dsimp only
    rw [capsuleVertices_length, capsuleTriangles_length _ _ hcvdn1]
  refine ⟨⟨hboxCounts (0, 0, 0) (by norm_num), ?_,
      fun size hx hy hz => hboxCounts size (by push_neg; exact ⟨by linarith, by linarith, by linarith⟩)⟩,
    ⟨hsphCounts 0 (by norm_num), ?_, fun radius hr => hsphCounts radius (by linarith)⟩,
    ⟨hcylCounts 0 0 (by norm_num), ?_,
      fun radius height hr hh => hcylCounts radius height (by push_neg; constructor <;> linarith)⟩,
    ⟨hconeCounts 0 0 (by norm_num), ?_,
      fun radius height hr hh => hconeCounts radius height (by push_neg; constructor <;> linarith)⟩,
    ⟨hcapCounts 0 0 (by norm_num), ?_,
      fun radius height hr hh => hcapCounts radius height (by push_neg; constructor <;> linarith)⟩⟩
  · intro m hm
    rw [generateBox, if_neg (by norm_num)] at hm
    obtain rfl : _ = m := Option.some_inj.mp hm
    rw [generateNormals_vertices]
    exact boxVertices_all_zero
  · intro m hm
    rw [generateSphere, if_neg (by push_neg; exact ⟨by norm_num, by omega⟩)] at hm
    obtain rfl : _ = m := Option.some_inj.mp hm
    rw [generateNormals_vertices]
    exact sphereVertices_all_zero _ _
  · intro m hm
    rw [generateCylinder, if_neg (by norm_num)] at hm
    obtain rfl : _ = m := Option.some_inj.mp hm
    rw [generateNormals_vertices]
    exact cylinderVertices_all_zero _
  · intro m hm
    rw [generateCone, if_neg (by norm_num)] at hm
    obtain rfl : _ = m := Option.some_inj.mp hm
    rw [generateNormals_vertices]
    exact coneVertices_all_zero _
  · intro m hm
    rw [generateCapsule, if_neg (by norm_num)] at hm
    obtain rfl : _ = m := Option.some_inj.mp hm
    rw [generateNormals_vertices]
    exact capsuleVertices_all_zero _ _

/-- Witness for C10's theorem at the default division number. -/
theorem zero_dimensions_accepted_witness :
    ((generateBox gDefault (0, 0, 0)).map fun m => (m.vertices.length, m.triangles.length)) =
      some (8, 12) ∧
    ((generateSphere gDefault 0).map fun m => (m.vertices.length, m.triangles.length)) =
      some (182, 360) ∧
    ((generateCylinder gDefault 0 0 true true true).map
        fun m => (m.vertices.length, m.triangles.length)) = some (42, 80) ∧
    ((generateCone gDefault 0 0 true true).map
        fun m => (m.vertices.length, m.triangles.length)) = some (22, 40) ∧
    ((generateCapsule gDefault 0 0).map fun m => (m.vertices.length, m.triangles.length)) =
      some (202, 400) := by
  obtain ⟨⟨hbox, _, _⟩, ⟨hsph, _, _⟩, ⟨hcyl, _, _⟩, ⟨hcone, _, _⟩, ⟨hcap, _, _⟩⟩ :=
    zero_dimensions_accepted gDefault (by decide)
  refine ⟨hbox, ?_, ?_, ?_, ?_⟩
  · rw [hsph]
    rfl
  · rw [hcyl]
    rfl
  · rw [hcone]
    rfl
  · rw [hcap]
    rfl

/-! ## C4 -/

theorem sphereVertices_norm (radius : ℝ) (vdn hdn : ℕ) (hr : 0 ≤ radius) :
    ∀ v ∈ sphereVertices radius vdn hdn,
      Real.sqrt (v.1 ^ 2 + v.2.1 ^ 2 + v.2.2 ^ 2) = radius := by
  intro v hv
  rw [sphereVertices] at hv
  have hsq : v.1 ^ 2 + v.2.1 ^ 2 + v.2.2 ^ 2 = radius ^ 2 := by
    rcases List.mem_append.mp hv with h | h
    · obtain ⟨i, hi, hv2⟩ := mem_flatMap_range h
      obtain ⟨j, hj, rfl⟩ := List.mem_map.mp hv2
      dsimp only
      linear_combination
        radius ^ 2 * Real.sin (((i + 1 : ℕ) : ℝ) * Real.pi / (vdn : ℕ)) ^ 2 *
            Real.sin_sq_add_cos_sq (((j : ℕ) : ℝ) * (2 * Real.pi) / (hdn : ℕ)) +
          radius ^ 2 * Real.sin_sq_add_cos_sq (((i + 1 : ℕ) : ℝ) * Real.pi / (vdn : ℕ))
    · simp only [List.mem_cons, List.mem_singleton] at h
      rcases h with rfl | rfl | hf
      · ring
      · ring
      · exact absurd hf (List.not_mem_nil _)
  rw [hsq, Real.sqrt_sq hr]

/-- C4: for radius ≥ 0 and division number ≥ 4, the sphere mesh has exactly
`(d/2 − 1)·d + 2` vertices and `(d/2 − 1)·d·2` triangles, and every vertex
lies at Euclidean distance `radius` from the origin (exact over ℝ; the C++
floats make this "within floating tolerance"). -/
theorem sphere_counts_and_norms (g : MeshGenerator) (radius : ℝ)
    (hr : 0 ≤ radius) (h4 : 4 ≤ g.divisionNumber) :
    ((generateSphere g radius).map fun m => (m.vertices.length, m.triangles.length)) =
      some ((g.divisionNumber / 2 - 1) * g.divisionNumber + 2,
        (g.divisionNumber / 2 - 1) * g.divisionNumber * 2) ∧
    (∀ m, generateSphere g radius = some m →
      ∀ v ∈ m.vertices, Real.sqrt (v.1 ^ 2 + v.2.1 ^ 2 + v.2.2 ^ 2) = radius) := by
  constructor
  · rw [generateSphere, if_neg (by push_neg; exact ⟨by linarith, by omega⟩)]
    dsimp only
    rw [Option.map_some']
    congr 1
    rw [generateNormals_vertices, generateNormals_triangles]
    dsimp only
    rw [sphereVertices_length, sphereTriangles_length _ _ (by omega)]
  · intro m hm
    rw [generateSphere, if_neg (by push_neg; exact ⟨by linarith, by omega⟩)] at hm
    obtain rfl : _ = m := Option.some_inj.mp hm
    rw [generateNormals_vertices]
    exact sphereVertices_norm radius _ _ hr

/-- Witness for C4's theorem with division number 4 and radius 1. -/
theorem sphere_counts_and_norms_witness :
    ((generateSphere ⟨4, true, true⟩ 1).map fun m => (m.vertices.length, m.triangles.length)) =
      some (6, 8) := by
  have h := (sphere_counts_and_norms ⟨4, true, true⟩ 1 (by norm_num) (by decide)).1
  simpa using h

/-! ## C1: index bounds and non-emptiness -/

theorem ne_nil_of_length_eq {α : Type} (l : List α) (n : ℕ) (h : l.length = n) (hn : 0 < n) :
    l ≠ [] := by
  intro hnil
  rw [hnil] at h
  simp at h
  omega

theorem triangleInBounds_mk {n a b c : ℕ} (h1 : a < n) (h2 : b < n) (h3 : c < n) :
    triangleInBounds n (a, b, c) := ⟨h1, h2, h3⟩

theorem sphereTriangles_bounds (vdn hdn : ℕ) (h2 : 2 ≤ vdn) (h1 : 1 ≤ hdn) :
    ∀ t ∈ sphereTriangles vdn hdn, triangleInBounds ((vdn - 1) * hdn + 2) t := by
  intro t ht
  rw [sphereTriangles] at ht
  have hmod : ∀ a : ℕ, a % hdn < hdn := fun a => Nat.mod_lt a (by omega)
  have hle : hdn ≤ (vdn - 1) * hdn := Nat.le_mul_of_pos_left hdn (by omega)
  rcases List.mem_append.mp ht with h | h
  · rcases List.mem_append.mp h with hf | hb
    · obtain ⟨i, hi, rfl⟩ := List.mem_map.mp hf
      have := List.mem_range.mp hi
      have := hmod (i + 1)
      exact triangleInBounds_mk (by omega) (by omega) (by omega)
    · obtain ⟨i, hi, hin⟩ := mem_flatMap_range hb
      obtain ⟨j, hj, hjn⟩ := mem_flatMap_range hin
      have hb1 : j + i * hdn < (vdn - 1) * hdn := add_mul_lt_mul hj (by omega)
      have hb2 : (j + 1) % hdn + (i + 1) * hdn < (vdn - 1) * hdn :=
        add_mul_lt_mul (hmod (j + 1)) (by omega)
      have hb3 : j + (i + 1) * hdn < (vdn - 1) * hdn := add_mul_lt_mul hj (by omega)
      have hb4 : (j + 1) % hdn + i * hdn < (vdn - 1) * hdn :=
        add_mul_lt_mul (hmod (j + 1)) (by omega)
      simp only [List.mem_cons, List.mem_singleton] at hjn
      rcases hjn with rfl | rfl | hf
      · exact triangleInBounds_mk (by omega) (by omega) (by omega)
      · exact triangleInBounds_mk (by omega) (by omega) (by omega)
      · exact absurd hf (List.not_mem_nil _)
  · obtain ⟨i, hi, rfl⟩ := List.mem_map.mp h
    have := List.mem_range.mp hi
    have hb1 : i % hdn + (vdn - 2) * hdn < (vdn - 1) * hdn :=
      add_mul_lt_mul (hmod i) (by omega)
    have hb2 : (i + 1) % hdn + (vdn - 2) * hdn < (vdn - 1) * hdn :=
      add_mul_lt_mul (hmod (i + 1)) (by omega)
    exact triangleInBounds_mk (by omega) (by omega) (by omega)

theorem cylinderTriangles_bounds (d : ℕ) (bottom top side : Bool) (hd : 1 ≤ d) :
    ∀ t ∈ cylinderTriangles d bottom top side, triangleInBounds (2 * d + 2) t := by
  intro t ht
  rw [cylinderTriangles] at ht
  obtain ⟨i, hi, hin⟩ := mem_flatMap_range ht
  have hmod : ∀ a : ℕ, a % d < d := fun a => Nat.mod_lt a (by omega)
  have hm1 := hmod (i + 1)
  rcases List.mem_append.mp hin with h | h
  · rcases List.mem_append.mp h with h2 | h2
    · split at h2
      · simp only [List.mem_singleton] at h2
        subst h2
        exact triangleInBounds_mk (by omega) (by omega) (by omega)
      · exact absurd h2 (List.not_mem_nil _)
    · split at h2
      · simp only [List.mem_cons, List.mem_singleton] at h2
        rcases h2 with rfl | rfl | hf
        · exact triangleInBounds_mk (by omega) (by omega) (by omega)
        · exact triangleInBounds_mk (by omega) (by omega) (by omega)
        · exact absurd hf (List.not_mem_nil _)
      · exact absurd h2 (List.not_mem_nil _)
  · split at h
    · simp only [List.mem_singleton] at h
      subst h
      exact triangleInBounds_mk (by omega) (by omega) (by omega)
    · exact absurd h (List.not_mem_nil _)

theorem coneTriangles_bounds (d : ℕ) (bottom side : Bool) (hd : 1 ≤ d) :
    ∀ t ∈ coneTriangles d bottom side, triangleInBounds (d + 2) t := by
  intro t ht
  rw [coneTriangles] at ht
  obtain ⟨i, hi, hin⟩ := mem_flatMap_range ht
  have hmod : ∀ a : ℕ, a % d < d := fun a => Nat.mod_lt a (by omega)
  have hm1 := hmod (i + 1)
  rcases List.mem_append.mp hin with h | h
  · split at h
    · simp only [List.mem_singleton] at h
      subst h
      exact triangleInBounds_mk (by omega) (by omega) (by omega)
    · exact absurd h (List.not_mem_nil _)
  · split at h
    · simp only [List.mem_singleton] at h
      subst h
      exact triangleInBounds_mk (by omega) (by omega) (by omega)
    · exact absurd h (List.not_mem_nil _)

theorem capsuleTriangles_bounds (vdn hdn : ℕ) (h1 : 1 ≤ vdn) (h2 : 1 ≤ hdn) :
    ∀ t ∈ capsuleTriangles vdn hdn, triangleInBounds (vdn * hdn + 2) t := by
  intro t ht
  rw [capsuleTriangles] at ht
  have hmod : ∀ a : ℕ, a % hdn < hdn := fun a => Nat.mod_lt a (by omega)
  have hle : hdn ≤ vdn * hdn := Nat.le_mul_of_pos_left hdn (by omega)
  rcases List.mem_append.mp ht with h | h
  · rcases List.mem_append.mp h with hf | hb
    · obtain ⟨i, hi, rfl⟩ := List.mem_map.mp hf
      have := List.mem_range.mp hi
      have := hmod (i + 1)
      exact triangleInBounds_mk (by omega) (by omega) (by omega)
    · obtain ⟨i, hi, hin⟩ := mem_flatMap_range hb
      obtain ⟨j, hj, hjn⟩ := mem_flatMap_range hin
      have hb1 : j + i * hdn < vdn * hdn := add_mul_lt_mul hj (by omega)
      have hb2 : (j + 1) % hdn + (i + 1) * hdn < vdn * hdn :=
        add_mul_lt_mul (hmod (j + 1)) (by omega)
      have hb3 : j + (i + 1) * hdn < vdn * hdn := add_mul_lt_mul hj (by omega)
      have hb4 : (j + 1) % hdn + i * hdn < vdn * hdn :=
        add_mul_lt_mul (hmod (j + 1)) (by omega)
      simp only [List.mem_cons, List.mem_singleton] at hjn
      rcases hjn with rfl | rfl | hf
      · exact triangleInBounds_mk (by omega) (by omega) (by omega)
      · exact triangleInBounds_mk (by omega) (by omega) (by omega)
      · exact absurd hf (List.not_mem_nil _)
  · obtain ⟨i, hi, rfl⟩ := List.mem_map.mp h
    have := List.mem_range.mp hi
    have hb1 : i % hdn + (vdn - 1) * hdn < vdn * hdn := add_mul_lt_mul (hmod i) (by omega)
    have hb2 : (i + 1) % hdn + (vdn - 1) * hdn < vdn * hdn :=
      add_mul_lt_mul (hmod (i + 1)) (by omega)
    exact triangleInBounds_mk (by omega) (by omega) (by omega)

theorem discTriangles_bounds (d : ℕ) (hd : 1 ≤ d) :
    ∀ t ∈ discTriangles d, triangleInBounds (d * 2) t := by
  intro t ht
  rw [discTriangles] at ht
  obtain ⟨i, hi, hin⟩ := mem_flatMap_range ht
  have hmod : (i + 1) % d < d := Nat.mod_lt _ (by omega)
  simp only [List.mem_cons, List.mem_singleton] at hin
  rcases hin with rfl | rfl | hf
  · exact triangleInBounds_mk (by omega) (by omega) (by omega)
  · exact triangleInBounds_mk (by omega) (by omega) (by omega)
  · exact absurd hf (List.not_mem_nil _)

theorem discVertices_length (r ir : ℝ) (d : ℕ) :
    (discVertices r ir d).length = d * 2 := by
  rw [discVertices]
  apply length_flatMap_const
  intro i
  rfl

theorem discTriangles_length (d : ℕ) : (discTriangles d).length = d * 2 := by
  rw [discTriangles]
  apply length_flatMap_const
  intro i
  rfl

theorem torusTriangles_bounds (n phi theta : ℕ) (hn : n ≤ phi) (ht : 1 ≤ theta) :
    ∀ t ∈ torusTriangles n phi theta, triangleInBounds (phi * theta) t := by
  intro t htm
  rw [torusTriangles] at htm
  obtain ⟨i, hi, hin⟩ := mem_flatMap_range htm
  obtain ⟨j, hj, hjn⟩ := mem_flatMap_range hin
  have hphi : 0 < phi := by omega
  have hmodp : (i + 1) % phi < phi := Nat.mod_lt _ hphi
  have hmodt : (j + 1) % theta < theta := Nat.mod_lt _ (by omega)
  have hb1 : j + i * theta < phi * theta := add_mul_lt_mul hj (by omega)
  have hb2 : (j + 1) % theta + i * theta < phi * theta := add_mul_lt_mul hmodt (by omega)
  have hb3 : j + (i + 1) % phi * theta < phi * theta := add_mul_lt_mul hj hmodp
  have hb4 : (j + 1) % theta + (i + 1) % phi * theta < phi * theta :=
    add_mul_lt_mul hmodt hmodp
  simp only [List.mem_cons, List.mem_singleton] at hjn
  rcases hjn with rfl | rfl | hf
  · exact triangleInBounds_mk (by omega) (by omega) (by omega)
  · exact triangleInBounds_mk (by omega) (by omega) (by omega)
  · exact absurd hf (List.not_mem_nil _)

theorem torusTriangles_length (n phi theta : ℕ) :
    (torusTriangles n phi theta).length = n * (theta * 2) := by
  rw [torusTriangles]
  apply length_flatMap_const
  intro i
  apply length_flatMap_const
  intro j
  rfl

theorem torusVertices_length (r cr b s : ℝ) (phi theta : ℕ) :
    (torusVertices r cr b s phi theta).length = phi * theta := by
  rw [torusVertices]
  apply length_flatMap_const
  intro i
  simp

/-- For the full sweep, `phiDivisionNumber` truncates to the division number
itself. -/
theorem torus_full_phi (d : ℕ) :
    (⌊(d : ℝ) * (2 * Real.pi) / (2 * Real.pi)⌋).toNat = d := by
  have h2pi : (2 : ℝ) * Real.pi ≠ 0 := by positivity
  rw [mul_div_assoc, div_self h2pi, mul_one, Int.floor_natCast, Int.toNat_natCast]

theorem generateTorus_triangles (g : MeshGenerator) (radius cr : ℝ) :
    (generateTorus g radius cr).triangles =
      torusTriangles g.divisionNumber g.divisionNumber (g.divisionNumber / 4) := by
  simp only [generateTorus, generateTorus4, gt_iff_lt, lt_self_iff_false, or_self,
    if_false, if_true, eq_self_iff_true, torus_full_phi, generateNormals_triangles]

theorem generateTorus_vertices_length (g : MeshGenerator) (radius cr : ℝ) :
    (generateTorus g radius cr).vertices.length =
      g.divisionNumber * (g.divisionNumber / 4) := by
  simp only [generateTorus, generateTorus4, gt_iff_lt, lt_self_iff_false, or_self,
    if_false, if_true, eq_self_iff_true, torus_full_phi, generateNormals_vertices,
    torusVertices_length]

theorem boxTriangles_bounds : ∀ t ∈ boxTriangles, triangleInBounds 8 t := by decide

/-- When the sweep extends to at least a full turn, the truncated
longitudinal ring count is at least the division number. -/
theorem torusPhi0_ge (d : ℕ) (e : ℝ) (he : 2 * Real.pi ≤ e) :
    d ≤ (⌊(d : ℝ) * e / (2 * Real.pi)⌋).toNat := by
  have h2pi : (0 : ℝ) < 2 * Real.pi := by positivity
  have hx : (d : ℝ) ≤ (d : ℝ) * e / (2 * Real.pi) := by
    rw [mul_div_assoc]
    calc (d : ℝ) = (d : ℝ) * 1 := (mul_one _).symm
    _ ≤ (d : ℝ) * (e / (2 * Real.pi)) := by
        apply mul_le_mul_of_nonneg_left _ (Nat.cast_nonneg d)
        rw [le_div_iff₀ h2pi]
        linarith
  have hfl : (d : ℤ) ≤ ⌊(d : ℝ) * e / (2 * Real.pi)⌋ := by
    apply Int.le_floor.mpr
    push_cast
    exact hx
  omega

/-- C1 (amended): every mesh returned by the primitive surface samplers has
all triangle vertex indices within the vertex array; the triangle list is
non-empty except that (a) a cylinder or cone generated with all of its
face-inclusion flags false, and (b) a partial-sweep torus whose truncated
longitudinal ring count `⌊divisionNumber·endAngle/(2π)⌋` is zero, yield a
(non-null) mesh with no triangles.  Stated for a configuration with division
number ≥ 4 (the spec's validity requirement for the curved solids). -/
theorem sampler_meshes_valid (g : MeshGenerator) (h4 : 4 ≤ g.divisionNumber) :
    (∀ size m, generateBox g size = some m → meshIndicesValid m ∧ m.triangles ≠ []) ∧
    (∀ radius m, generateSphere g radius = some m → meshIndicesValid m ∧ m.triangles ≠ []) ∧
    (∀ radius height bottom top side m,
      generateCylinder g radius height bottom top side = some m →
      meshIndicesValid m ∧ ((bottom || top || side) = true → m.triangles ≠ [])) ∧
    (∀ radius height bottom side m, generateCone g radius height bottom side = some m →
      meshIndicesValid m ∧ ((bottom || side) = true → m.triangles ≠ [])) ∧
    (∀ radius height m, generateCapsule g radius height = some m →
      meshIndicesValid m ∧ m.triangles ≠ []) ∧
    (∀ radius innerRadius m, generateDisc g radius innerRadius = some m →
      meshIndicesValid m ∧ m.triangles ≠ []) ∧
    (∀ radius cr beginAngle endAngle,
      meshIndicesValid (generateTorus4 g radius cr beginAngle endAngle) ∧
      (1 ≤ (⌊(g.divisionNumber : ℝ) * endAngle / (2 * Real.pi)⌋).toNat →
        (generateTorus4 g radius cr beginAngle endAngle).triangles ≠ []) ∧
      ((⌊(g.divisionNumber : ℝ) * endAngle / (2 * Real.pi)⌋).toNat = 0 →
        (generateTorus4 g radius cr beginAngle endAngle).triangles = [])) ∧
    (∀ radius cr, meshIndicesValid (generateTorus g radius cr) ∧
      (generateTorus g radius cr).triangles ≠ []) := by
  have hvdn : 2 ≤ g.divisionNumber / 2 := by omega
  have hcvdn : 1 ≤ capsuleVdn g.divisionNumber := by
    rw [capsuleVdn]
    split <;> omega
  refine ⟨fun size m hm => ?_, fun radius m hm => ?_,
    fun radius height bottom top side m hm => ?_, fun radius height bottom side m hm => ?_,
    fun radius height m hm => ?_, fun radius innerRadius m hm => ?_,
    fun radius cr beginAngle endAngle => ?_, fun radius cr => ?_⟩
  · rw [generateBox] at hm
    split at hm
    · exact absurd hm (by simp)
    · obtain rfl : _ = m := Option.some_inj.mp hm
      constructor
      · intro t ht
        rw [generateNormals_triangles] at ht
        rw [generateNormals_vertices]
        dsimp only at ht ⊢
        have h8 : (boxVertices size).length = 8 := rfl
        rw [h8]
        exact boxTriangles_bounds t ht
      · rw [generateNormals_triangles]
        dsimp only
        decide
  · rw [generateSphere] at hm
    split at hm
    · exact absurd hm (by simp)
    · obtain rfl : _ = m := Option.some_inj.mp hm
      constructor
      · intro t ht
        rw [generateNormals_triangles] at ht
        rw [generateNormals_vertices]
        dsimp only at ht ⊢
        rw [sphereVertices_length]
        exact sphereTriangles_bounds _ _ hvdn (by omega) t ht
      · rw [generateNormals_triangles]
        exact ne_nil_of_length_eq _ _ (sphereTriangles_length _ _ hvdn)
          (by
            have : 1 ≤ (g.divisionNumber / 2 - 1) * g.divisionNumber :=
              Nat.one_le_iff_ne_zero.mpr (by
                intro hz
                rcases Nat.mul_eq_zero.mp hz with hz1 | hz2 <;> omega)
            omega)
  · rw [generateCylinder] at hm
    split at hm
    · exact absurd hm (by simp)
    · obtain rfl : _ = m := Option.some_inj.mp hm
      constructor
      · intro t ht
        rw [generateNormals_triangles] at ht
        rw [generateNormals_vertices]
        rw [cylinderVertices_length]
        exact cylinderTriangles_bounds _ _ _ _ (by omega) t ht
      · intro hflag
        rw [generateNormals_triangles]
        apply ne_nil_of_length_eq _ _ (cylinderTriangles_length _ _ _ _)
        have h1 : 1 ≤ (if top then 1 else 0) + (if side then 2 else 0) +
            (if bottom then 1 else 0) := by
          cases bottom <;> cases top <;> cases side <;>
            first
            | exact absurd hflag (by decide)
            | decide
        have : 1 * 1 ≤ g.divisionNumber * ((if top then 1 else 0) +
            (if side then 2 else 0) + (if bottom then 1 else 0)) :=
          Nat.mul_le_mul (by omega) h1
        omega
  · rw [generateCone] at hm
    split at hm
    · exact absurd hm (by simp)
    · obtain rfl : _ = m := Option.some_inj.mp hm
      constructor
      · intro t ht
        rw [generateNormals_triangles] at ht
        rw [generateNormals_vertices]
        rw [coneVertices_length]
        exact coneTriangles_bounds _ _ _ (by omega) t ht
      · intro hflag
        rw [generateNormals_triangles]
        apply ne_nil_of_length_eq _ _ (coneTriangles_length _ _ _)
        have h1 : 1 ≤ (if side then 1 else 0) + (if bottom then 1 else 0) := by
          cases bottom <;> cases side <;>
            first
            | exact absurd hflag (by decide)
            | decide
        have : 1 * 1 ≤ g.divisionNumber * ((if side then 1 else 0) +
            (if bottom then 1 else 0)) := Nat.mul_le_mul (by omega) h1
        omega
  · rw [generateCapsule] at hm
    split at hm
    · exact absurd hm (by simp)
    · obtain rfl : _ = m := Option.some_inj.mp hm
      constructor
      · intro t ht
        rw [generateNormals_triangles] at ht
        rw [generateNormals_vertices]
        dsimp only at ht ⊢
        rw [capsuleVertices_length]
        exact capsuleTriangles_bounds _ _ hcvdn (by omega) t ht
      · rw [generateNormals_triangles]
        apply ne_nil_of_length_eq _ _ (capsuleTriangles_length _ _ hcvdn)
        have : 1 * 1 ≤ capsuleVdn g.divisionNumber * g.divisionNumber :=
          Nat.mul_le_mul hcvdn (by omega)
        omega
  · rw [generateDisc] at hm
    split at hm
    · exact absurd hm (by simp)
    · obtain rfl : _ = m := Option.some_inj.mp hm
      constructor
      · intro t ht
        dsimp only at ht ⊢
        rw [discVertices_length]
        exact discTriangles_bounds _ (by omega) t ht
      · exact ne_nil_of_length_eq _ _ (discTriangles_length _) (by omega)
  · refine ⟨?_, ?_, ?_⟩
    · intro t ht
      simp only [generateTorus4, generateNormals_triangles, generateNormals_vertices,
        torusVertices_length] at ht ⊢
      split_ifs at ht ⊢ with h1 h2 h3 <;>
        exact torusTriangles_bounds _ _ _ (by omega) (by omega) t ht
    · intro hphi
      simp only [generateTorus4, generateNormals_triangles]
      split_ifs with h1 h2 h3
      · exact ne_nil_of_length_eq _ _ (torusTriangles_length _ _ _)
          (Nat.mul_pos (by omega) (by omega))
      · exact ne_nil_of_length_eq _ _ (torusTriangles_length _ _ _)
          (Nat.mul_pos (by omega) (by omega))
      · exact ne_nil_of_length_eq _ _ (torusTriangles_length _ _ _)
          (Nat.mul_pos (by omega) (by omega))
      · push_neg at h3
        have hge := torusPhi0_ge g.divisionNumber endAngle h3.2
        exact ne_nil_of_length_eq _ _ (torusTriangles_length _ _ _)
          (Nat.mul_pos (by omega) (by omega))
    · intro hphi
      simp only [generateTorus4, generateNormals_triangles]
      split_ifs with h1 h2 h3
      · exfalso
        rw [h1, torus_full_phi] at hphi
        omega
      · exfalso
        rw [h1, torus_full_phi] at hphi
        omega
      · rw [hphi]
        simp [torusTriangles]
      · rw [hphi]
        simp [torusTriangles]
  · constructor
    · intro t ht
      rw [generateTorus_triangles] at ht
      rw [generateTorus_vertices_length]
      exact torusTriangles_bounds _ _ _ (le_refl _) (by omega) t ht
    · apply ne_nil_of_length_eq _ _ (by rw [generateTorus_triangles, torusTriangles_length])
      have : 1 * 1 ≤ g.divisionNumber * (g.divisionNumber / 4 * 2) :=
        Nat.mul_le_mul (by omega) (by omega)
      omega

/-- Witness for C1's theorem: concrete sphere and cylinder meshes are
non-empty and index-valid. -/
theorem sampler_meshes_valid_witness :
    (∀ m, generateSphere gDefault 1 = some m → meshIndicesValid m ∧ m.triangles ≠ []) ∧
    (∀ m, generateCylinder gDefault 1 2 true true true = some m →
      meshIndicesValid m ∧ (true || true || true) = true → m.triangles ≠ []) := by
  obtain ⟨_, hsph, hcyl, _⟩ := sampler_meshes_valid gDefault (by decide)
  exact ⟨fun m hm => hsph 1 m hm,
    fun m hm => fun _ => ((hcyl 1 2 true true true m hm).2 (by decide))⟩

/-- C1 counterexample: a cylinder generated with all face-inclusion flags
false is a non-null mesh whose triangle list is empty, contradicting the
claim that every non-null generated mesh has a non-empty triangle list. -/
theorem generateCylinder_all_flags_false_empty :
    ((generateCylinder gDefault 1 1 false false false).map fun m => m.triangles) =
      some [] := by
  rw [generateCylinder, if_neg (by norm_num), Option.map_some', generateNormals_triangles]
  rfl

/-! ## C5 -/

/-- C5: the spine (resp. cross-section) is treated as closed exactly when its
first and last points are exactly equal, each closure reducing the effective
point count by one, and `generateExtrusion` returns a null mesh if and only
if fewer than 2 effective spine points or fewer than 2 effective
cross-section points remain. -/
theorem extrusion_null_iff_effective_counts (g : MeshGenerator) (e : Extrusion)
    (enableTextureCoordinate : Bool) :
    generateExtrusion g e enableTextureCoordinate = none ↔
      specEffectiveSpineCount e < 2 ∨ specEffectiveCrossSectionCount e < 2 :=
  generateExtrusion_eq_none_iff g e enableTextureCoordinate

/-! ## C6 -/

theorem capTriangles_true_reversed (polygon tris : List ℕ) :
    capTriangles polygon tris true =
      (capTriangles polygon tris false).map fun t => (t.1, t.2.2, t.2.1) := by
  rw [capTriangles, capTriangles, List.map_map]
  simp [Function.comp]

/-- C6: for a 2-point open spine and a closed square cross-section the
extrusion's triangle list is the 8 side triangles (`(spineSize−1)·
crossSectionSize·2` in effective counts) followed, per cap, by exactly the
triangles the Triangulator returns for the cap's 4-gon polygon (`4 − 2` fan
triangles per cap), the end cap's triangles having their vertex order
reversed relative to the begin cap's. -/
theorem extrusion_prism_triangles (g : MeshGenerator) (p q : Vec3) (a b c d : Vec2)
    (hpq : p ≠ q) (ca : ℝ) :
    ((generateExtrusion g
        { crossSection := [a, b, c, d, a], spine := [p, q], scale := [], orientation := [],
          creaseAngle := ca, beginCap := true, endCap := true } false).map
      fun m => m.triangles) =
      some (extrusionSideTriangles 2 4 2 5 ++
        (capTriangles (List.range 4) (triangulatorApply (List.range 4)) false ++
          capTriangles ((List.range 4).map fun i => 4 * (2 - 1) + i)
            (triangulatorApply ((List.range 4).map fun i => 4 * (2 - 1) + i)) true)) ∧
    (extrusionSideTriangles 2 4 2 5).length = (2 - 1) * 4 * 2 ∧
    capTriangles (List.range 4) (triangulatorApply (List.range 4)) false =
      [(0, 1, 2), (0, 2, 3)] ∧
    (triangulatorApply (List.range 4)).length / 3 = 4 - 2 ∧
    capTriangles ((List.range 4).map fun i => 4 * (2 - 1) + i)
        (triangulatorApply ((List.range 4).map fun i => 4 * (2 - 1) + i)) true =
      [(4, 6, 5), (4, 7, 6)] ∧
    (∀ polygon tris, capTriangles polygon tris true =
      (capTriangles polygon tris false).map fun t => (t.1, t.2.2, t.2.1)) := by
  refine ⟨?_, by decide, by decide, by decide, by decide, capTriangles_true_reversed⟩
  have hceq : ([a, b, c, d, a].getD 0 ((0 : ℝ), (0 : ℝ)) =
      [a, b, c, d, a].getD ([a, b, c, d, a].length - 1) ((0 : ℝ), (0 : ℝ))) = True :=
    eq_true rfl
  have hseq : ([p, q].getD 0 ((0 : ℝ), (0 : ℝ), (0 : ℝ)) =
      [p, q].getD ([p, q].length - 1) ((0 : ℝ), (0 : ℝ), (0 : ℝ))) = False :=
    eq_false (fun hh => hpq hh)
  rw [generateExtrusion]
  dsimp only
  rw [if_neg (by simp : ¬([p, q].length < 2 ∨ [a, b, c, d, a].length < 2))]
  simp only [hceq, hseq, if_true, if_false, eq_self_iff_true, not_false_eq_true, and_true,
    true_and, and_self]
  rw [if_neg (by simp : ¬([p, q].length < 2 ∨ [a, b, c, d, a].length - 1 < 2))]
  rw [Option.map_some']
  congr 1
  rw [if_neg (show ¬(false = true) by simp), generateNormals_triangles]
  dsimp only
  norm_num

/-- Witness for C6's theorem on the unit square swept along the y-axis. -/
theorem extrusion_prism_triangles_witness :
    ((generateExtrusion gDefault
        { crossSection := [(0, 0), (1, 0), (1, 1), (0, 1), (0, 0)],
          spine := [(0, 0, 0), (0, 1, 0)], scale := [], orientation := [],
          creaseAngle := 0, beginCap := true, endCap := true } false).map
      fun m => m.triangles) =
      some (extrusionSideTriangles 2 4 2 5 ++
        (capTriangles (List.range 4) (triangulatorApply (List.range 4)) false ++
          capTriangles ((List.range 4).map fun i => 4 * (2 - 1) + i)
            (triangulatorApply ((List.range 4).map fun i => 4 * (2 - 1) + i)) true)) := by
  have h := (extrusion_prism_triangles gDefault (0, 0, 0) (0, 1, 0) (0, 0) (1, 0) (1, 1) (0, 1)
    (by intro hx; rw [Prod.ext_iff, Prod.ext_iff] at hx; norm_num at hx) 0).1
  exact h

/-! ## C7 -/

/-- The bounding-box scan at the failing cross-section: the true z-minimum is
4, but the `zmin = min(xmin, z)` slip yields 4.5. -/
theorem extrusionCapBBox_at_failing_input :
    extrusionCapBBox [((4.5 : ℝ), (5 : ℝ)), (4.5, 4), (5.5, 4), (5.5, 5), (4.5, 5)] =
      (4.5, 5.5, 4.5, 5) := by
  rw [extrusionCapBBox]
  norm_num [min_def, max_def]

/-- The begin-cap texture points at the failing cross-section: two of them
have second coordinate −1. -/
theorem extrusionBeginCapUVs_at_failing_input :
    extrusionBeginCapUVs [((4.5 : ℝ), (5 : ℝ)), (4.5, 4), (5.5, 4), (5.5, 5), (4.5, 5)] =
      [(0, 1), (0, -1), (1, -1), (1, 1), (0, 1)] := by
  rw [extrusionBeginCapUVs, extrusionCapBBox_at_failing_input]
  norm_num

/-- C7 (code bug): for the closed square cross-section
`(4.5,5),(4.5,4),(5.5,4),(5.5,5),(4.5,5)` swept along a straight 2-point
spine with both caps and texture coordinates enabled, the begin-cap texture
block contains the point `(0, −1)`, which the mesh's texture-coordinate array
also contains — outside `[0,1]` — because the extent scan computes
`zmin = min(xmin, z)` instead of `min(zmin, z)`. -/
theorem extrusion_cap_uv_out_of_unit_range :
    extrusionBeginCapUVs [((4.5 : ℝ), (5 : ℝ)), (4.5, 4), (5.5, 4), (5.5, 5), (4.5, 5)] =
      [(0, 1), (0, -1), (1, -1), (1, 1), (0, 1)] ∧
    (((0 : ℝ), (-1 : ℝ)) ∈
      ((generateExtrusion gDefault
          { crossSection := [(4.5, 5), (4.5, 4), (5.5, 4), (5.5, 5), (4.5, 5)],
            spine := [(0, 0, 0), (0, 1, 0)], scale := [], orientation := [],
            creaseAngle := 0, beginCap := true, endCap := true } true).map
        (fun m => m.texCoords)).getD []) ∧
    ¬(0 ≤ (-1 : ℝ) ∧ (-1 : ℝ) ≤ 1) := by
  refine ⟨extrusionBeginCapUVs_at_failing_input, ?_, by norm_num⟩
  have hceq : ([((4.5 : ℝ), (5 : ℝ)), (4.5, 4), (5.5, 4), (5.5, 5), (4.5, 5)].getD 0
        ((0 : ℝ), (0 : ℝ)) =
      [((4.5 : ℝ), (5 : ℝ)), (4.5, 4), (5.5, 4), (5.5, 5), (4.5, 5)].getD
        ([((4.5 : ℝ), (5 : ℝ)), (4.5, 4), (5.5, 4), (5.5, 5), (4.5, 5)].length - 1)
        ((0 : ℝ), (0 : ℝ))) = True :=
    eq_true rfl
  have hseq : ([((0 : ℝ), (0 : ℝ), (0 : ℝ)), ((0 : ℝ), (1 : ℝ), (0 : ℝ))].getD 0
        ((0 : ℝ), (0 : ℝ), (0 : ℝ)) =
      [((0 : ℝ), (0 : ℝ), (0 : ℝ)), ((0 : ℝ), (1 : ℝ), (0 : ℝ))].getD
        ([((0 : ℝ), (0 : ℝ), (0 : ℝ)), ((0 : ℝ), (1 : ℝ), (0 : ℝ))].length - 1)
        ((0 : ℝ), (0 : ℝ), (0 : ℝ))) = False :=
    eq_false (fun hh =>
      absurd (show ((0 : ℝ), (0 : ℝ), (0 : ℝ)) = ((0 : ℝ), (1 : ℝ), (0 : ℝ)) from hh)
        (by rw [Prod.ext_iff, Prod.ext_iff]; norm_num))
  rw [generateExtrusion]
  dsimp only
  rw [if_neg (by simp :
    ¬([((0 : ℝ), (0 : ℝ), (0 : ℝ)), ((0 : ℝ), (1 : ℝ), (0 : ℝ))].length < 2 ∨
      [((4.5 : ℝ), (5 : ℝ)), (4.5, 4), (5.5, 4), (5.5, 5), (4.5, 5)].length < 2))]
  simp only [hceq, hseq, if_true, if_false, eq_self_iff_true, not_false_eq_true, and_true,
    true_and, and_self]
  rw [if_neg (by simp :
    ¬([((0 : ℝ), (0 : ℝ), (0 : ℝ)), ((0 : ℝ), (1 : ℝ), (0 : ℝ))].length < 2 ∨
      [((4.5 : ℝ), (5 : ℝ)), (4.5, 4), (5.5, 4), (5.5, 5), (4.5, 5)].length - 1 < 2))]
  rw [Option.map_some', Option.getD_some]
  rw [generateTextureCoordinateForExtrusion]
  dsimp only
  split
  · next h => exact absurd h (by decide)
  · split
    · split
      · next h1 h2 h3 =>
        exact List.mem_append.mpr (Or.inl (List.mem_append.mpr (Or.inr (by
          rw [extrusionBeginCapUVs_at_failing_input]
          exact List.mem_cons.mpr (Or.inr (List.mem_cons.mpr (Or.inl rfl)))))))
      · next h1 h2 h3 => exact absurd h3 (by decide)
    · next h1 h2 => exact absurd h2 (by decide)

end Choreonoid
